import Mathlib

/-!
Verification development for the HackMty-CapitalOne cost-analysis pipeline.

The repository chains two model calls (PDF-text extraction and cost analysis)
and post-processes the analysis JSON with a deterministic numeric
reconciliation layer (`api_analisis.py`), schema validation and persistence
(`api_master.py`), and folder/PDF handling (`api_parseo_pdfs.py`).

Modelling conventions:
* JSON/Python values are the inductive `PyVal`.  Python `float` is idealized
  as an exact rational; Python's `round` (banker's rounding) becomes decimal
  round-half-even on `ℚ`.
* A Python expression that can raise becomes `Option` (`none` = exception).
* Dicts are association lists; `json.loads` output has no aliasing, so the
  in-place mutations of the source are rendered functionally.
* Outbound API traffic is modelled by an oracle (`String → Bool` per probe
  kind) and every issued request is recorded in an `ApiCall` trace.
-/

/-- Round-half-even to the nearest integer, as Python's `round` does. -/
def rhe (q : ℚ) : ℤ :=
  let f : ℤ := Int.floor q
  let r : ℚ := q - f
  if r < 1/2 then f
  else if 1/2 < r then f + 1
  else if f % 2 = 0 then f else f + 1

/-- Python `round(q, nd)` on an (idealized) float: round-half-even at `nd`
decimal places. -/
def roundQ (q : ℚ) (nd : Nat) : ℚ := (rhe (q * (10 : ℚ) ^ nd) : ℚ) / (10 : ℚ) ^ nd

/-- Python/JSON runtime values, as far as the pipeline manipulates them. -/
inductive PyVal where
  | int (n : ℤ)
  | float (q : ℚ)
  | bool (b : Bool)
  | str (s : String)
  | none
  | list (xs : List PyVal)
  | dict (fields : List (String × PyVal))

/-- Python truthiness (`bool(v)`). -/
def pyTruthy : PyVal → Bool
  | .int n => !(n == 0)
  | .float q => !(decide (q = 0))
  | .bool b => b
  | .str s => !(s == "")
  | .none => false
  | .list xs => !xs.isEmpty
  | .dict fs => !fs.isEmpty

/-- Python `v == 0` (comparison against the int literal `0`): true for
numeric zero of any numeric type, false for every non-numeric value. -/
def pyEqZero : PyVal → Bool
  | .int n => n == 0
  | .float q => decide (q = 0)
  | .bool b => !b
  | _ => false

/-- Python `isinstance(v, (int, float))`; note `bool` is a subclass of `int`. -/
def isNumeric : PyVal → Bool
  | .int _ => true
  | .float _ => true
  | .bool _ => true
  | _ => false

/-- The integer value of an `int`-typed operand (`bool` counts as `int`). -/
def asIntVal : PyVal → Option ℤ
  | .int n => some n
  | .bool b => some (if b then 1 else 0)
  | _ => Option.none

/-- The numeric value of any numeric operand, as a rational. -/
def asNum : PyVal → Option ℚ
  | .int n => some (n : ℚ)
  | .float q => some q
  | .bool b => some (if b then 1 else 0)
  | _ => Option.none

/-- Python subtraction `a - b`: int with int stays int, any float makes a
float, anything non-numeric raises `TypeError`. -/
def pySub (a b : PyVal) : Option PyVal :=
  match asIntVal a, asIntVal b with
  | some x, some y => some (.int (x - y))
  | _, _ =>
    match asNum a, asNum b with
    | some x, some y => some (.float (x - y))
    | _, _ => Option.none

/-- Python multiplication `a * b` on numbers (same promotion rule as `pySub`). -/
def pyMul (a b : PyVal) : Option PyVal :=
  match asIntVal a, asIntVal b with
  | some x, some y => some (.int (x * y))
  | _, _ =>
    match asNum a, asNum b with
    | some x, some y => some (.float (x * y))
    | _, _ => Option.none

/-- Python true division `a / b`: always a float; `ZeroDivisionError` on a
zero divisor, `TypeError` on non-numeric operands. -/
def pyDiv (a b : PyVal) : Option PyVal :=
  match asNum a, asNum b with
  | some x, some y => if y = 0 then Option.none else some (.float (x / y))
  | _, _ => Option.none

/-- Membership of key `k` in an association-list dict. -/
def dmem (fs : List (String × PyVal)) (k : String) : Bool :=
  fs.any (fun kv => kv.1 == k)

/-- The value stored under `k`, if present. -/
def lookupKey (fs : List (String × PyVal)) (k : String) : Option PyVal :=
  (fs.find? (fun kv => kv.1 == k)).map Prod.snd

/-- Python `d.get(k, default)` for a dict. -/
def dget (fs : List (String × PyVal)) (k : String) (d : PyVal) : PyVal :=
  (lookupKey fs k).getD d

/-- Python `d[k] = v`: replaces in place if present, appends otherwise. -/
def dset (fs : List (String × PyVal)) (k : String) (v : PyVal) :
    List (String × PyVal) :=
  if dmem fs k then fs.map (fun kv => if kv.1 == k then (k, v) else kv)
  else fs ++ [(k, v)]

/-- Does `v` equal the string `k` under Python `==` (a str equals no
non-str JSON value)? -/
def pyIsStr : PyVal → String → Bool
  | .str s, k => s == k
  | _, _ => false

/-- Does `pat` occur as a contiguous run inside the character list? -/
def occursL (pat : List Char) : List Char → Bool
  | [] => pat.isEmpty
  | c :: cs => pat.isPrefixOf (c :: cs) || occursL pat cs

/-- Python substring test `pat in s`. -/
def strContains (s pat : String) : Bool := occursL pat.toList s.toList

/-- Python `k in container` for a string key: key test on dicts, element
test on lists, substring test on strings; `TypeError` otherwise. -/
def pyContains (container : PyVal) (k : String) : Option Bool :=
  match container with
  | .dict fs => some (dmem fs k)
  | .list xs => some (xs.any (fun v => pyIsStr v k))
  | .str s => some (strContains s k)
  | _ => Option.none

/-- Python `container[k]` with a string subscript: only dicts support it
(`none` covers both `KeyError` and `TypeError`). -/
def pyIndexStr : PyVal → String → Option PyVal
  | .dict fs, k => lookupKey fs k
  | _, _ => Option.none

/-- Python `container[k] = v` with a string subscript: only dicts. -/
def pySetStr : PyVal → String → PyVal → Option PyVal
  | .dict fs, k, v => some (.dict (dset fs k v))
  | _, _, _ => Option.none

/-- Python `container.get(k, d)`: `AttributeError` on non-dicts. -/
def pyDictGet : PyVal → String → PyVal → Option PyVal
  | .dict fs, k, d => some (dget fs k d)
  | _, _, _ => Option.none

/-- An `Option`-valued element-wise traversal (Python `for` loop in which every
iteration may raise). -/
def optMapM {α β : Type} (f : α → Option β) : List α → Option (List β)
  | [] => some []
  | x :: xs =>
    match f x, optMapM f xs with
    | some y, some ys => some (y :: ys)
    | _, _ => Option.none

namespace Analisis

/-- Model of `_round_num(x, nd)` from `api_analisis.py`: `round(x, nd)` on numerics
(ints and bools are left as Python leaves them), identity otherwise. -/
def round_num (x : PyVal) (nd : Nat) : PyVal :=
  if isNumeric x then
    match x with
    | .int n => .int n
    | .bool b => .int (if b then 1 else 0)
    | .float q => .float (roundQ q nd)
    | v => v
  else x

/-- One pass of `if k in c and isinstance(c[k], (int, float)): c[k] =
_round_num(c[k], nd)` — the body of both rounding loops in
`analizar_costos_por_api`. -/
def adjustKey (container : PyVal) (k : String) (nd : Nat) : Option PyVal := do
  let mem ← pyContains container k
  if mem then do
    let v ← pyIndexStr container k
    if isNumeric v then pySetStr container k (round_num v nd) else pure container
  else pure container

/-- The `resumen_general` adjustment of `analizar_costos_por_api`: the three
currency totals re-rounded to 2 decimals, the percentage to 4. -/
def adjustResumen (rg : PyVal) : Option PyVal := do
  let rg1 ← adjustKey rg "costo_en_contrato" 2
  let rg2 ← adjustKey rg1 "precio_estimado_mercado" 2
  let rg3 ← adjustKey rg2 "diferencia_total" 2
  adjustKey rg3 "diferencia_porcentaje" 4

/-- The per-line-item adjustment of `analizar_costos_por_api` (the body of
`for p in data.get("partidas", [])`): read the two costs with default `0`,
force `diferencia`/`diferencia_%` to `0` on a falsy/zero contract cost or
recompute them otherwise, then re-round the four numeric fields. -/
def adjustPartida (p : PyVal) : Option PyVal := do
  let costo_contrato ← pyDictGet p "costo_en_contrato" (.int 0)
  let costo_mercado ← pyDictGet p "precio_estimado_mercado" (.int 0)
  let p1 ←
    if !(pyTruthy costo_contrato) || pyEqZero costo_contrato then do
      let q1 ← pySetStr p "diferencia" (.int 0)
      pySetStr q1 "diferencia_%" (.int 0)
    else do
      let diff ← pySub costo_mercado costo_contrato
      let q1 ← pySetStr p "diferencia" (round_num diff 2)
      let ratio ← pyDiv diff costo_contrato
      let pct ← pyMul ratio (.int 100)
      pySetStr q1 "diferencia_%" (round_num pct 4)
  let p2 ← adjustKey p1 "costo_en_contrato" 2
  let p3 ← adjustKey p2 "precio_estimado_mercado" 2
  let p4 ← adjustKey p3 "diferencia" 2
  adjustKey p4 "diferencia_%" 4

/-- Iterating `for p in ps` and mutating each item in place: on a list the
items are replaced by their adjusted versions; iterating a dict yields its
keys (strings) and a string yields its characters, and `p.get` on either
raises unless there is nothing to iterate; other values are not iterable. -/
def adjustPartidas (ps : PyVal) : Option PyVal :=
  match ps with
  | .list xs => (optMapM adjustPartida xs).map PyVal.list
  | .dict fs => if fs.isEmpty then some (.dict fs) else Option.none
  | .str s => if s.isEmpty then some (.str s) else Option.none
  | _ => Option.none

/-- The four top-level keys the `assert` in `analizar_costos_por_api` (and
the final check in `api_master.py`) requires. -/
def requiredKeys : List String :=
  ["resumen_general", "partidas", "alertas", "recomendaciones"]

/-- Lines 111–149 of `api_analisis.py` applied to a parsed top-level dict:
the minimal-keys `assert`, the `resumen_general` re-rounding, and the
per-partida reconciliation. -/
def reconcileDict (fs : List (String × PyVal)) : Option (List (String × PyVal)) :=
  if requiredKeys.all (fun k => dmem fs k) then
    match adjustResumen (dget fs "resumen_general" (.dict [])) with
    | Option.none => Option.none
    | some rg' =>
      let fs1 := dset fs "resumen_general" rg'
      match adjustPartidas (dget fs1 "partidas" (.list [])) with
      | Option.none => Option.none
      | some ps' => some (dset fs1 "partidas" ps')
  else Option.none

/-- The numeric-reconciliation step of `analizar_costos_por_api` on the
parsed model response.  A non-dict top level always raises (the membership
test or the `.get` call fails), hence `none`. -/
def reconcile : PyVal → Option PyVal
  | .dict fs => (reconcileDict fs).map PyVal.dict
  | _ => Option.none

/-- The numeric value stored under field `k`, when the field is present and
numeric. -/
def numField (fs : List (String × PyVal)) (k : String) : Option ℚ :=
  (lookupKey fs k).bind asNum

/-- The four partida fields the reconciler writes or re-rounds. -/
def partidaFields : List String :=
  ["costo_en_contrato", "precio_estimado_mercado", "diferencia", "diferencia_%"]

/-- The four `resumen_general` fields the reconciler re-rounds. -/
def resumenFields : List String :=
  ["costo_en_contrato", "precio_estimado_mercado", "diferencia_total",
   "diferencia_porcentaje"]

end Analisis

/-- One outbound request to the model API: an availability probe (with
`max_completion_tokens` or `max_tokens` capped at 1) or a full completion. -/
inductive ApiCall where
  | probeMaxCompletion (m : String)
  | probeMaxTokens (m : String)
  | completion (m : String)
deriving DecidableEq

/-- The model a request was addressed to. -/
def ApiCall.target : ApiCall → String
  | .probeMaxCompletion m => m
  | .probeMaxTokens m => m
  | .completion m => m

namespace Analisis

/-- The probing loop of `first_available_model` in `api_analisis.py`
(lines 71-79): `ok m` tells whether the single `max_tokens=1` probe of
candidate `m` completes without raising; the loop records every issued
probe and breaks at the first success, leaving `selected` (`none` = the
loop exhausted the list, i.e. `selected` stayed `None`). -/
def probeLoop (ok : String → Bool) : List String → List ApiCall × Option String
  | [] => ([], Option.none)
  | m :: rest =>
    if ok m then ([.probeMaxTokens m], some m)
    else
      let r := probeLoop ok rest
      (.probeMaxTokens m :: r.1, r.2)

/-- Model of `first_available_model` from `api_analisis.py`: the probing
loop followed by `if not selected: raise RuntimeError(...)` (line 81).
That guard is a Python truthiness test, not an `is None` test, so both an
exhausted candidate list and a selected empty-string candidate raise
(`none` — the spec's `NoAvailableModelError`). -/
def first_available_model (ok : String → Bool) (candidates : List String) :
    List ApiCall × Option String :=
  let r := probeLoop ok candidates
  (r.1,
    match r.2 with
    | some m => if m == "" then Option.none else some m
    | Option.none => Option.none)

/-- The single-marker template substitution of `analizar_costos_por_api`:
`PROMPT_BASE.replace("[[JSON_DATA]]", json_input)`. -/
def jsonMarker : String := "[[JSON_DATA]]"

end Analisis

/-- Python `s.replace(pat, rep)` on character lists, for a nonempty `pat`
(the only use is the marker `[[JSON_DATA]]`): every non-overlapping
occurrence is replaced left to right and the substituted text is not
rescanned. -/
def pyReplaceL (pat rep : List Char) : List Char → List Char
  | [] => []
  | c :: cs =>
    if !pat.isEmpty && pat.isPrefixOf (c :: cs) then
      rep ++ pyReplaceL pat rep ((c :: cs).drop pat.length)
    else
      c :: pyReplaceL pat rep cs
termination_by s => s.length
decreasing_by
  · simp only [List.length_drop]
    have hp : 0 < pat.length := by
      cases pat with
      | nil => simp_all
      | cons a as => simp
    simp only [List.length_cons]
    omega
  · simp

/-- The scan of `pyReplaceL`, counting occurrences instead of replacing. -/
def countOcc (pat : List Char) : List Char → Nat
  | [] => 0
  | c :: cs =>
    if !pat.isEmpty && pat.isPrefixOf (c :: cs) then
      1 + countOcc pat ((c :: cs).drop pat.length)
    else
      countOcc pat cs
termination_by s => s.length
decreasing_by
  · simp only [List.length_drop]
    have hp : 0 < pat.length := by
      cases pat with
      | nil => simp_all
      | cons a as => simp
    simp only [List.length_cons]
    omega
  · simp

namespace Analisis

/-- Prompt construction of the analysis stage (line 93 of
`api_analisis.py`): plain `str.replace` of the marker. -/
def buildPrompt (template payload : String) : String :=
  ⟨pyReplaceL jsonMarker.toList payload.toList template.toList⟩

end Analisis

namespace Parseo

/-- ASCII lowering, as `str.lower()` acts on the ASCII file names involved. -/
def lowerChar (c : Char) : Char :=
  if 65 ≤ c.toNat && c.toNat ≤ 90 then Char.ofNat (c.toNat + 32) else c

/-- Python `name.lower()`. -/
def lowerStr (s : String) : String := ⟨s.toList.map lowerChar⟩

/-- Python whitespace test used by `str.strip()` (ASCII range). -/
def isSpaceChar (c : Char) : Bool :=
  c == ' ' || c == '\t' || c == '\n' || c == '\r' || c.toNat == 11 || c.toNat == 12

/-- Python `s.strip()`. -/
def pyStrip (s : String) : String :=
  ⟨((s.toList.dropWhile isSpaceChar).reverse.dropWhile isSpaceChar).reverse⟩

/-- Code-point comparison of strings, as Python's `sorted` orders them. -/
def charListLe : List Char → List Char → Bool
  | [], _ => true
  | _ :: _, [] => false
  | a :: as, b :: bs =>
    if a.toNat < b.toNat then true
    else if b.toNat < a.toNat then false
    else charListLe as bs

/-- String comparison `a <= b`. -/
def strLe (a b : String) : Bool := charListLe a.toList b.toList

/-- Insertion step of the sort. -/
def insertSorted (x : String) : List String → List String
  | [] => [x]
  | y :: ys => if strLe x y then x :: y :: ys else y :: insertSorted x ys

/-- Python `sorted(...)` on file names. -/
def sortStrings : List String → List String
  | [] => []
  | x :: xs => insertSorted x (sortStrings xs)

/-- Model of `read_pdfs_from_folder` from `api_parseo_pdfs.py`.  `folder` is
`os.listdir`'s view (`none` = not a directory, raising
`FileNotFoundError`); `extractText` stands for the external
`extract_text_from_pdf`.  Every `.pdf`-named file contributes a chunk with
a `### DOCUMENTO:` header; the joined, stripped text must be nonempty or
the function raises `RuntimeError`. -/
def read_pdfs_from_folder (folder : Option (List String))
    (extractText : String → String) : Option String :=
  match folder with
  | Option.none => Option.none
  | some names =>
    let chunks := ((sortStrings names).filter
        (fun n => ".pdf".toList.isSuffixOf (lowerStr n).toList)).map
      (fun n => "\n\n### DOCUMENTO: " ++ n ++ "\n" ++ extractText n)
    let content := pyStrip (String.join chunks)
    if content == "" then Option.none else some content

end Parseo

/-- The opening brace character, `'\x7b'`. -/
def lbrace : Char := Char.ofNat 123

/-- The closing brace character, `'\x7d'`. -/
def rbrace : Char := Char.ofNat 125

/-- The characters of the field name `contenido`. -/
def contenidoChars : List Char := "contenido".toList

/-- Python `template.format(contenido=payload)`, restricted to templates
without conversion/format specs (the repository's template is of that
shape): `\x7b\x7b`/`\x7d\x7d` unescape to single braces, the field
`\x7bcontenido\x7d` is replaced by the payload verbatim (not rescanned),
any other field raises `KeyError` and stray single braces raise
`ValueError`. -/
def pyFormatL (payload : List Char) : List Char → Option (List Char)
  | [] => some []
  | c :: cs =>
    if c = lbrace then
      match cs with
      | [] => Option.none
      | c2 :: cs2 =>
        if c2 = lbrace then (pyFormatL payload cs2).map (lbrace :: ·)
        else
          let fld := (c2 :: cs2).takeWhile (fun d => !(d == rbrace))
          if fld.length = (c2 :: cs2).length then Option.none
          else if fld = contenidoChars then
            (pyFormatL payload ((c2 :: cs2).drop (fld.length + 1))).map (payload ++ ·)
          else Option.none
    else if c = rbrace then
      match cs with
      | [] => Option.none
      | c2 :: cs2 =>
        if c2 = rbrace then (pyFormatL payload cs2).map (rbrace :: ·)
        else Option.none
    else (pyFormatL payload cs).map (c :: ·)
termination_by s => s.length
decreasing_by
  all_goals simp only [List.length_cons, List.length_drop]
  all_goals omega

namespace Parseo

/-- Prompt construction of the extraction stage (line 95 of
`api_parseo_pdfs.py`): `PROMPT_TEMPLATE.format(contenido=contenido)`. -/
def buildPrompt (template payload : String) : Option String :=
  (pyFormatL payload.toList template.toList).map (fun l => ⟨l⟩)

/-- Model of `first_available_model` from `api_parseo_pdfs.py`: each candidate is
probed with `max_completion_tokens=1`, and on failure probed again with
`max_tokens=1`; the first candidate with a successful probe is returned,
later candidates are not touched, and exhaustion raises (`none`). -/
def first_available_model (okMC okMT : String → Bool) :
    List String → List ApiCall × Option String
  | [] => ([], Option.none)
  | m :: rest =>
    if okMC m then ([.probeMaxCompletion m], some m)
    else if okMT m then ([.probeMaxCompletion m, .probeMaxTokens m], some m)
    else
      let r := first_available_model okMC okMT rest
      (.probeMaxCompletion m :: .probeMaxTokens m :: r.1, r.2)

/-- Model of `analizar_carpeta_obras` from `api_parseo_pdfs.py`, with its external
collaborators as parameters (`respond` is the completion request — `none`
models a transport error — and `parse` is `json.loads`, used only to
validate).  Returns the trace of outbound model requests together with the
returned JSON text. -/
def analizar_carpeta_obras (folder : Option (List String))
    (extractText : String → String) (template : String)
    (okMC okMT : String → Bool) (candidates : List String)
    (respond : String → Option String) (parse : String → Option PyVal) :
    List ApiCall × Option String :=
  match read_pdfs_from_folder folder extractText with
  | Option.none => ([], Option.none)
  | some contenido =>
    match buildPrompt template contenido with
    | Option.none => ([], Option.none)
    | some prompt =>
      let sel := first_available_model okMC okMT candidates
      match sel.2 with
      | Option.none => (sel.1, Option.none)
      | some m =>
        let calls := sel.1 ++ [ApiCall.completion m]
        match respond prompt with
        | Option.none => (calls, Option.none)
        | some json_text =>
          match parse json_text with
          | Option.none => (calls, Option.none)
          | some _ => (calls, some json_text)

end Parseo

namespace Master

/-- The `faltantes` list-comprehension of `analizar_obras_completo`
(`api_master.py` line 78) over one required key at a time; `k not in
final_json` can itself raise on a non-container. -/
def faltantesAux (j : PyVal) : List String → Option (List String)
  | [] => some []
  | k :: ks =>
    match pyContains j k, faltantesAux j ks with
    | some mem, some rest => some (if mem then rest else k :: rest)
    | _, _ => Option.none

/-- The computed list of missing required keys. -/
def faltantes (j : PyVal) : Option (List String) :=
  faltantesAux j Analisis.requiredKeys

/-- Lines 77–80 of `api_master.py`: compute `faltantes` and raise
`KeyError(faltantes)` when it is nonempty (a Python list is truthy iff
nonempty). -/
def validar_llaves (j : PyVal) : Option (Except (List String) Unit) :=
  (faltantes j).map (fun l => if l.isEmpty then Except.ok () else Except.error l)

/-- Model of `analizar_obras_completo` from `api_master.py` (the CLI orchestrator),
with collaborators as parameters: `isdir` is `os.path.isdir`, `extract` is
`analizar_carpeta_obras` (`none` = raised), `parse` is `json.loads` inside
`_ensure_json_dict` (both stage outputs are strings here, so the dict
branch of `_ensure_json_dict` is not exercised), `analyze` is
`analizar_costos_por_api`.  Returns the `_write_json` persistence trace
(path, record) in order, and the final record (`none` = the run raised). -/
def analizar_obras_completo (isdir : Bool) (extract : Option String)
    (parse : String → Option PyVal) (analyze : String → Option String)
    (ruta_salida ruta_intermedio : Option String)
    (validar_campos_final : Bool) :
    List (String × PyVal) × Option PyVal :=
  if !isdir then ([], Option.none)
  else
    match extract with
    | Option.none => ([], Option.none)
    | some contrato_json_str =>
      match parse contrato_json_str with
      | Option.none => ([], Option.none)
      | some contrato_json =>
        let writes : List (String × PyVal) :=
          match ruta_intermedio with
          | some p => [(p, contrato_json)]
          | Option.none => []
        match analyze contrato_json_str with
        | Option.none => (writes, Option.none)
        | some final_json_str =>
          match parse final_json_str with
          | Option.none => (writes, Option.none)
          | some final_json =>
            let finish : List (String × PyVal) × Option PyVal :=
              (writes ++ (match ruta_salida with
                          | some p => [(p, final_json)]
                          | Option.none => []), some final_json)
            if validar_campos_final then
              match validar_llaves final_json with
              | Option.none => (writes, Option.none)
              | some (Except.error _) => (writes, Option.none)
              | some (Except.ok _) => finish
            else finish

end Master

/-! ### Supporting lemmas: rounding -/

theorem rhe_intCast (z : ℤ) : rhe (z : ℚ) = z := by
  simp [rhe]

theorem roundQ_intCast (z : ℤ) (nd : Nat) : roundQ (z : ℚ) nd = z := by
  unfold roundQ
  have h : ((z : ℚ) * (10 : ℚ) ^ nd) = ((z * (10 : ℤ) ^ nd : ℤ) : ℚ) := by
    push_cast
    ring
  rw [h, rhe_intCast]
  push_cast
  have hpow : ((10 : ℚ) ^ nd) ≠ 0 := by positivity
  field_simp

theorem roundQ_idem (q : ℚ) (nd : Nat) : roundQ (roundQ q nd) nd = roundQ q nd := by
  unfold roundQ
  have hpow : ((10 : ℚ) ^ nd) ≠ 0 := by positivity
  rw [div_mul_cancel₀ _ hpow, rhe_intCast]

theorem isNumeric_eq_isSome (v : PyVal) : isNumeric v = (asNum v).isSome := by
  cases v <;> rfl

theorem asNum_round_num (v : PyVal) (q : ℚ) (nd : Nat) (h : asNum v = some q) :
    asNum (Analisis.round_num v nd) = some (roundQ q nd) := by
  cases v with
  | int n =>
    simp only [asNum, Option.some.injEq] at h
    simp only [Analisis.round_num, isNumeric, if_true, asNum, Option.some.injEq]
    rw [← h, roundQ_intCast]
  | float x =>
    simp only [asNum, Option.some.injEq] at h
    simp [Analisis.round_num, isNumeric, asNum, h]
  | bool b =>
    simp only [asNum, Option.some.injEq] at h
    cases b <;> simp_all [Analisis.round_num, isNumeric, asNum] <;>
      rw [← h]
    · simpa using (roundQ_intCast 0 nd).symm
    · simpa using (roundQ_intCast 1 nd).symm
  | str s => simp [asNum] at h
  | none => simp [asNum] at h
  | list xs => simp [asNum] at h
  | dict fs => simp [asNum] at h

theorem isNumeric_round_num (v : PyVal) (nd : Nat) (h : isNumeric v = true) :
    isNumeric (Analisis.round_num v nd) = true := by
  cases v <;> simp_all [Analisis.round_num, isNumeric]

/-! ### Supporting lemmas: association-list dicts -/

theorem dmem_eq_isSome (fs : List (String × PyVal)) (k : String) :
    dmem fs k = (lookupKey fs k).isSome := by
  induction fs with
  | nil => rfl
  | cons kv rest ih =>
    by_cases h : kv.1 == k <;> simp [dmem, lookupKey, List.find?, h] <;>
      simpa [dmem, lookupKey] using ih

theorem lookupKey_eq_none (fs : List (String × PyVal)) (k : String)
    (h : dmem fs k = false) : lookupKey fs k = Option.none := by
  rw [dmem_eq_isSome] at h
  exact Option.not_isSome_iff_eq_none.mp (by simp [h])

theorem lookupMapSet_self (fs : List (String × PyVal)) (k : String) (v : PyVal)
    (h : dmem fs k = true) :
    lookupKey (fs.map (fun kv => if kv.1 == k then (k, v) else kv)) k = some v := by
  induction fs with
  | nil => simp [dmem] at h
  | cons kv rest ih =>
    by_cases hh : (kv.1 == k) = true
    · simp [lookupKey, List.find?, hh]
    · have hh' : (kv.1 == k) = false := by simpa using hh
      have hrest : dmem rest k = true := by
        simpa [dmem, List.any_cons, hh'] using h
      simp only [List.map_cons, hh', Bool.false_eq_true, if_false]
      simpa [lookupKey, List.find?, hh'] using ih hrest

theorem lookupMapSet_ne (fs : List (String × PyVal)) (k k' : String) (v : PyVal)
    (h : k' ≠ k) :
    lookupKey (fs.map (fun kv => if kv.1 == k then (k, v) else kv)) k' =
      lookupKey fs k' := by
  induction fs with
  | nil => rfl
  | cons kv rest ih =>
    by_cases hh : (kv.1 == k) = true
    · have hk : kv.1 = k := by simpa using hh
      have h1 : (k == k') = false := by
        simp only [beq_eq_false_iff_ne]
        exact fun hc => h hc.symm
      have h2 : (kv.1 == k') = false := by
        rw [hk]
        exact h1
      simp only [List.map_cons, hh, if_true]
      simpa [lookupKey, List.find?, h1, h2] using ih
    · have hh' : (kv.1 == k) = false := by simpa using hh
      simp only [List.map_cons, hh', Bool.false_eq_true, if_false]
      by_cases h3 : (kv.1 == k') = true
      · simp [lookupKey, List.find?, h3]
      · have h3' : (kv.1 == k') = false := by simpa using h3
        simpa [lookupKey, List.find?, h3'] using ih

theorem lookupAppend_self (fs : List (String × PyVal)) (k : String) (v : PyVal)
    (h : dmem fs k = false) : lookupKey (fs ++ [(k, v)]) k = some v := by
  induction fs with
  | nil => simp [lookupKey, List.find?]
  | cons kv rest ih =>
    have h1 : (kv.1 == k) = false := by
      by_contra hc
      simp only [Bool.not_eq_false] at hc
      simp [dmem, List.any_cons, hc] at h
    have hrest : dmem rest k = false := by
      simpa [dmem, List.any_cons, h1] using h
    simpa [lookupKey, List.find?, h1] using ih hrest

theorem lookupAppend_ne (fs : List (String × PyVal)) (k k' : String) (v : PyVal)
    (h : k' ≠ k) : lookupKey (fs ++ [(k, v)]) k' = lookupKey fs k' := by
  induction fs with
  | nil =>
    have h1 : (k == k') = false := by
      simp only [beq_eq_false_iff_ne]
      exact fun hc => h hc.symm
    simp [lookupKey, List.find?, h1]
  | cons kv rest ih =>
    by_cases h3 : (kv.1 == k') = true
    · simp [lookupKey, List.find?, h3]
    · have h3' : (kv.1 == k') = false := by simpa using h3
      simpa [lookupKey, List.find?, h3'] using ih

theorem lookupKey_dset_self (fs : List (String × PyVal)) (k : String) (v : PyVal) :
    lookupKey (dset fs k v) k = some v := by
  unfold dset
  by_cases hmem : dmem fs k = true
  · simp only [hmem, if_true]
    exact lookupMapSet_self fs k v hmem
  · have hmem' : dmem fs k = false := by simpa using hmem
    simp only [hmem', Bool.false_eq_true, if_false]
    exact lookupAppend_self fs k v hmem'

theorem lookupKey_dset_ne (fs : List (String × PyVal)) (k k' : String) (v : PyVal)
    (h : k' ≠ k) : lookupKey (dset fs k v) k' = lookupKey fs k' := by
  unfold dset
  by_cases hmem : dmem fs k = true
  · simp only [hmem, if_true]
    exact lookupMapSet_ne fs k k' v h
  · have hmem' : dmem fs k = false := by simpa using hmem
    simp only [hmem', Bool.false_eq_true, if_false]
    exact lookupAppend_ne fs k k' v h

theorem dget_eq_of_lookup (fs : List (String × PyVal)) (k : String) (d v : PyVal)
    (h : lookupKey fs k = some v) : dget fs k d = v := by
  simp [dget, h]

theorem dget_eq_default (fs : List (String × PyVal)) (k : String) (d : PyVal)
    (h : lookupKey fs k = Option.none) : dget fs k d = d := by
  simp [dget, h]

/-! ### Supporting lemmas: Python numeric operators -/

theorem asIntVal_asNum (v : PyVal) (n : ℤ) (h : asIntVal v = some n) :
    asNum v = some (n : ℚ) := by
  cases v with
  | int m => simp only [asIntVal, Option.some.injEq] at h; simp [asNum, h]
  | bool b =>
    cases b <;> simp_all [asIntVal, asNum] <;> simp [← h]
  | float q => simp [asIntVal] at h
  | str s => simp [asIntVal] at h
  | none => simp [asIntVal] at h
  | list xs => simp [asIntVal] at h
  | dict fs => simp [asIntVal] at h

theorem asIntVal_none_float (v : PyVal) (q : ℚ) (hn : asIntVal v = Option.none)
    (hq : asNum v = some q) : v = .float q := by
  cases v <;> simp_all [asIntVal, asNum]

theorem pySub_num (a b : PyVal) (x y : ℚ) (ha : asNum a = some x)
    (hb : asNum b = some y) :
    ∃ d, pySub a b = some d ∧ asNum d = some (x - y) := by
  cases h1 : asIntVal a with
  | some na =>
    cases h2 : asIntVal b with
    | some nb =>
      have hxa := asIntVal_asNum a na h1
      have hxb := asIntVal_asNum b nb h2
      rw [ha] at hxa
      rw [hb] at hxb
      refine ⟨.int (na - nb), ?_, ?_⟩
      · simp [pySub, h1, h2]
      · simp only [asNum, Option.some.injEq]
        simp only [Option.some.injEq] at hxa hxb
        push_cast
        rw [hxa, hxb]
    | none =>
      have hbf := asIntVal_none_float b y h2 hb
      refine ⟨.float (x - y), ?_, rfl⟩
      subst hbf
      cases a <;> simp_all [pySub, asIntVal, asNum]
  | none =>
    have haf := asIntVal_none_float a x h1 ha
    refine ⟨.float (x - y), ?_, rfl⟩
    subst haf
    cases b <;> simp_all [pySub, asIntVal, asNum]

theorem pyDiv_num (a b : PyVal) (x y : ℚ) (ha : asNum a = some x)
    (hb : asNum b = some y) (hy : y ≠ 0) :
    pyDiv a b = some (.float (x / y)) := by
  simp [pyDiv, ha, hb, hy]

theorem pyMul_float_int (r : ℚ) (n : ℤ) :
    pyMul (.float r) (.int n) = some (.float (r * n)) := by
  simp [pyMul, asIntVal, asNum]

theorem pyTruthy_num (v : PyVal) (q : ℚ) (h : asNum v = some q) :
    pyTruthy v = !(decide (q = 0)) := by
  cases v with
  | int n =>
    simp only [asNum, Option.some.injEq] at h
    subst h
    by_cases hn : n = 0 <;> simp [pyTruthy, hn]
  | float x =>
    simp only [asNum, Option.some.injEq] at h
    subst h
    rfl
  | bool b =>
    simp only [asNum, Option.some.injEq] at h
    cases b <;> simp_all [pyTruthy] <;> simp [← h]
  | str s => simp [asNum] at h
  | none => simp [asNum] at h
  | list xs => simp [asNum] at h
  | dict fs => simp [asNum] at h

theorem pyEqZero_num (v : PyVal) (q : ℚ) (h : asNum v = some q) :
    pyEqZero v = decide (q = 0) := by
  cases v with
  | int n =>
    simp only [asNum, Option.some.injEq] at h
    subst h
    by_cases hn : n = 0 <;> simp [pyEqZero, hn]
  | float x =>
    simp only [asNum, Option.some.injEq] at h
    subst h
    rfl
  | bool b =>
    simp only [asNum, Option.some.injEq] at h
    cases b <;> simp_all [pyEqZero] <;> simp [← h]
  | str s => simp [asNum] at h
  | none => simp [asNum] at h
  | list xs => simp [asNum] at h
  | dict fs => simp [asNum] at h

/-! ### Supporting lemmas: the field-rounding pass -/

theorem numField_some_elim (fs : List (String × PyVal)) (k : String) (q : ℚ)
    (h : Analisis.numField fs k = some q) :
    ∃ v, lookupKey fs k = some v ∧ asNum v = some q ∧ isNumeric v = true := by
  unfold Analisis.numField at h
  cases hv : lookupKey fs k with
  | none => rw [hv] at h; simp at h
  | some v =>
    rw [hv] at h
    simp only [Option.some_bind] at h
    exact ⟨v, rfl, h, by rw [isNumeric_eq_isSome, h]; rfl⟩

theorem numField_congr (fs fs' : List (String × PyVal)) (k : String)
    (h : lookupKey fs' k = lookupKey fs k) :
    Analisis.numField fs' k = Analisis.numField fs k := by
  unfold Analisis.numField
  rw [h]

theorem adjustKey_dict (fs : List (String × PyVal)) (k : String) (nd : Nat) :
    ∃ fs', Analisis.adjustKey (.dict fs) k nd = some (.dict fs') ∧
      (∀ k', k' ≠ k → lookupKey fs' k' = lookupKey fs k') ∧
      (∀ v, lookupKey fs k = some v → isNumeric v = true →
        lookupKey fs' k = some (Analisis.round_num v nd)) ∧
      (Analisis.numField fs k = Option.none → fs' = fs) := by
  by_cases hmem : dmem fs k = true
  · obtain ⟨v, hv⟩ : ∃ v, lookupKey fs k = some v := by
      rw [dmem_eq_isSome] at hmem
      exact Option.isSome_iff_exists.mp hmem
    by_cases hnum : isNumeric v = true
    · refine ⟨dset fs k (Analisis.round_num v nd), ?_, ?_, ?_, ?_⟩
      · simp [Analisis.adjustKey, pyContains, hmem, pyIndexStr, hv, hnum, pySetStr]
      · exact fun k' hk => lookupKey_dset_ne fs k k' _ hk
      · intro w hw _
        rw [hv] at hw
        obtain rfl : v = w := by simpa using hw
        exact lookupKey_dset_self fs k _
      · intro hnone
        exfalso
        rw [Analisis.numField, hv, Option.some_bind] at hnone
        have hs : (asNum v).isSome = true := by
          rw [← isNumeric_eq_isSome]
          exact hnum
        rw [hnone] at hs
        simp at hs
    · have hnum' : isNumeric v = false := by simpa using hnum
      refine ⟨fs, ?_, fun _ _ => rfl, ?_, fun _ => rfl⟩
      · simp [Analisis.adjustKey, pyContains, hmem, pyIndexStr, hv, hnum']
      · intro w hw hwnum
        rw [hv] at hw
        obtain rfl : v = w := by simpa using hw
        rw [hnum'] at hwnum
        exact absurd hwnum (by simp)
  · have hmem' : dmem fs k = false := by simpa using hmem
    refine ⟨fs, ?_, fun _ _ => rfl, ?_, fun _ => rfl⟩
    · simp [Analisis.adjustKey, pyContains, hmem']
    · intro w hw _
      rw [lookupKey_eq_none fs k hmem'] at hw
      exact absurd hw (by simp)

theorem adjustResumen_dict (rg : List (String × PyVal)) :
    ∃ rg', Analisis.adjustResumen (.dict rg) = some (.dict rg') ∧
      (∀ k, ¬ k ∈ Analisis.resumenFields → lookupKey rg' k = lookupKey rg k) ∧
      (∀ k, k ∈ (["costo_en_contrato", "precio_estimado_mercado",
          "diferencia_total"] : List String) →
        ∀ q, Analisis.numField rg k = some q →
          Analisis.numField rg' k = some (roundQ q 2)) ∧
      (∀ q, Analisis.numField rg "diferencia_porcentaje" = some q →
        Analisis.numField rg' "diferencia_porcentaje" = some (roundQ q 4)) := by
  obtain ⟨r1, e1, fr1, val1, _⟩ := adjustKey_dict rg "costo_en_contrato" 2
  obtain ⟨r2, e2, fr2, val2, _⟩ := adjustKey_dict r1 "precio_estimado_mercado" 2
  obtain ⟨r3, e3, fr3, val3, _⟩ := adjustKey_dict r2 "diferencia_total" 2
  obtain ⟨r4, e4, fr4, val4, _⟩ := adjustKey_dict r3 "diferencia_porcentaje" 4
  have roundStep : ∀ (a : List (String × PyVal)) (k' : String) (nd : Nat)
      (b : List (String × PyVal)) (q : ℚ),
      (∀ v, lookupKey a k' = some v → isNumeric v = true →
        lookupKey b k' = some (Analisis.round_num v nd)) →
      Analisis.numField a k' = some q →
      Analisis.numField b k' = some (roundQ q nd) := by
    intro a k' nd b q hval hq
    obtain ⟨v, hv, hvq, hvn⟩ := numField_some_elim a k' q hq
    rw [Analisis.numField, hval v hv hvn, Option.some_bind]
    exact asNum_round_num v q nd hvq
  refine ⟨r4, ?_, ?_, ?_, ?_⟩
  · simp [Analisis.adjustResumen, e1, e2, e3, e4]
  · intro k hk
    simp only [Analisis.resumenFields, List.mem_cons, List.not_mem_nil,
      or_false] at hk
    push_neg at hk
    obtain ⟨h1, h2, h3, h4⟩ := hk
    rw [fr4 k h4, fr3 k h3, fr2 k h2, fr1 k h1]
  · intro k hk q hq
    simp only [List.mem_cons, List.not_mem_nil, or_false] at hk
    rcases hk with rfl | rfl | rfl
    · have s1 := roundStep rg "costo_en_contrato" 2 r1 q val1 hq
      have s2 := numField_congr _ _ _ (fr2 "costo_en_contrato" (by decide))
      have s3 := numField_congr _ _ _ (fr3 "costo_en_contrato" (by decide))
      have s4 := numField_congr _ _ _ (fr4 "costo_en_contrato" (by decide))
      rw [s4, s3, s2, s1]
    · have s1 := numField_congr _ _ _ (fr1 "precio_estimado_mercado" (by decide))
      rw [← s1] at hq
      have s2 := roundStep r1 "precio_estimado_mercado" 2 r2 q val2 hq
      have s3 := numField_congr _ _ _ (fr3 "precio_estimado_mercado" (by decide))
      have s4 := numField_congr _ _ _ (fr4 "precio_estimado_mercado" (by decide))
      rw [s4, s3, s2]
    · have s1 := numField_congr _ _ _ (fr1 "diferencia_total" (by decide))
      have s2 := numField_congr _ _ _ (fr2 "diferencia_total" (by decide))
      rw [← s1, ← s2] at hq
      have s3 := roundStep r2 "diferencia_total" 2 r3 q val3 hq
      have s4 := numField_congr _ _ _ (fr4 "diferencia_total" (by decide))
      rw [s4, s3]
  · intro q hq
    have s1 := numField_congr _ _ _ (fr1 "diferencia_porcentaje" (by decide))
    have s2 := numField_congr _ _ _ (fr2 "diferencia_porcentaje" (by decide))
    have s3 := numField_congr _ _ _ (fr3 "diferencia_porcentaje" (by decide))
    rw [← s1, ← s2, ← s3] at hq
    exact roundStep r3 "diferencia_porcentaje" 4 r4 q val4 hq

theorem round_num_int_zero (nd : Nat) :
    Analisis.round_num (.int 0) nd = PyVal.int 0 := rfl

theorem adjustPartida_zero (pd : List (String × PyVal))
    (h : (!(pyTruthy (dget pd "costo_en_contrato" (.int 0)))
         || pyEqZero (dget pd "costo_en_contrato" (.int 0))) = true) :
    ∃ pd', Analisis.adjustPartida (.dict pd) = some (.dict pd') ∧
      lookupKey pd' "diferencia" = some (.int 0) ∧
      lookupKey pd' "diferencia_%" = some (.int 0) ∧
      (∀ k, ¬ k ∈ Analisis.partidaFields → lookupKey pd' k = lookupKey pd k) := by
  set p1 := dset (dset pd "diferencia" (.int 0)) "diferencia_%" (.int 0) with hp1
  obtain ⟨f2, e2, fr2, val2, _⟩ := adjustKey_dict p1 "costo_en_contrato" 2
  obtain ⟨f3, e3, fr3, val3, _⟩ := adjustKey_dict f2 "precio_estimado_mercado" 2
  obtain ⟨f4, e4, fr4, val4, _⟩ := adjustKey_dict f3 "diferencia" 2
  obtain ⟨f5, e5, fr5, val5, _⟩ := adjustKey_dict f4 "diferencia_%" 4
  have hdif1 : lookupKey p1 "diferencia" = some (.int 0) := by
    rw [hp1, lookupKey_dset_ne _ _ _ _ (by decide)]
    exact lookupKey_dset_self _ _ _
  have hdifp1 : lookupKey p1 "diferencia_%" = some (.int 0) :=
    lookupKey_dset_self _ _ _
  refine ⟨f5, ?_, ?_, ?_, ?_⟩
  · simp [Analisis.adjustPartida, pyDictGet, h, pySetStr, ← hp1, e2, e3, e4, e5]
    intro ht hz
    rw [ht, hz] at h
    simp at h
  · have l2 : lookupKey f2 "diferencia" = some (.int 0) := by
      rw [fr2 _ (by decide), hdif1]
    have l3 : lookupKey f3 "diferencia" = some (.int 0) := by
      rw [fr3 _ (by decide), l2]
    have l4 := val4 _ l3 (by rfl)
    rw [fr5 _ (by decide), l4, round_num_int_zero]
  · have l2 : lookupKey f2 "diferencia_%" = some (.int 0) := by
      rw [fr2 _ (by decide), hdifp1]
    have l3 : lookupKey f3 "diferencia_%" = some (.int 0) := by
      rw [fr3 _ (by decide), l2]
    have l4 : lookupKey f4 "diferencia_%" = some (.int 0) := by
      rw [fr4 _ (by decide), l3]
    have l5 := val5 _ l4 (by rfl)
    rw [l5, round_num_int_zero]
  · intro k hk
    simp only [Analisis.partidaFields, List.mem_cons, List.not_mem_nil,
      or_false] at hk
    push_neg at hk
    obtain ⟨h1, h2, h3, h4⟩ := hk
    rw [fr5 k h4, fr4 k h3, fr3 k h2, fr2 k h1, hp1,
      lookupKey_dset_ne _ _ _ _ h4, lookupKey_dset_ne _ _ _ _ h3]

theorem adjustPartida_nonzero (pd : List (String × PyVal)) (c m : ℚ)
    (hc : asNum (dget pd "costo_en_contrato" (.int 0)) = some c) (hc0 : c ≠ 0)
    (hm : asNum (dget pd "precio_estimado_mercado" (.int 0)) = some m) :
    ∃ pd', Analisis.adjustPartida (.dict pd) = some (.dict pd') ∧
      Analisis.numField pd' "diferencia" = some (roundQ (m - c) 2) ∧
      Analisis.numField pd' "diferencia_%" = some (roundQ ((m - c) / c * 100) 4) ∧
      Analisis.numField pd' "costo_en_contrato" = some (roundQ c 2) ∧
      ((lookupKey pd "precio_estimado_mercado").isSome = true →
        Analisis.numField pd' "precio_estimado_mercado" = some (roundQ m 2)) ∧
      (∀ k, ¬ k ∈ Analisis.partidaFields → lookupKey pd' k = lookupKey pd k) := by
  have hcond : (!(pyTruthy (dget pd "costo_en_contrato" (.int 0)))
      || pyEqZero (dget pd "costo_en_contrato" (.int 0))) = false := by
    rw [pyTruthy_num _ _ hc, pyEqZero_num _ _ hc]
    simp [hc0]
  obtain ⟨d, hd, hdval⟩ := pySub_num _ _ m c hm hc
  have hdivv := pyDiv_num d _ (m - c) c hdval hc hc0
  have hmulv := pyMul_float_int ((m - c) / c) 100
  have hcast : ((100 : ℤ) : ℚ) = (100 : ℚ) := by norm_num
  rw [hcast] at hmulv
  set p1 := dset (dset pd "diferencia" (Analisis.round_num d 2)) "diferencia_%"
    (Analisis.round_num (.float ((m - c) / c * 100)) 4) with hp1
  obtain ⟨f2, e2, fr2, val2, _⟩ := adjustKey_dict p1 "costo_en_contrato" 2
  obtain ⟨f3, e3, fr3, val3, _⟩ := adjustKey_dict f2 "precio_estimado_mercado" 2
  obtain ⟨f4, e4, fr4, val4, _⟩ := adjustKey_dict f3 "diferencia" 2
  obtain ⟨f5, e5, fr5, val5, _⟩ := adjustKey_dict f4 "diferencia_%" 4
  have hdnum : isNumeric d = true := by
    rw [isNumeric_eq_isSome, hdval]
    rfl
  refine ⟨f5, ?_, ?_, ?_, ?_, ?_, ?_⟩
  · simp [Analisis.adjustPartida, pyDictGet, hcond, pySetStr, hd, hdivv, hmulv,
      ← hp1, e2, e3, e4, e5]
    intro hor
    rcases hor with ht | hz
    · rw [ht] at hcond
      simp at hcond
    · rw [hz] at hcond
      simp at hcond
  · -- diferencia
    have l1 : lookupKey p1 "diferencia" = some (Analisis.round_num d 2) := by
      rw [hp1, lookupKey_dset_ne _ _ _ _ (by decide)]
      exact lookupKey_dset_self _ _ _
    have l2 : lookupKey f2 "diferencia" = some (Analisis.round_num d 2) := by
      rw [fr2 _ (by decide), l1]
    have l3 : lookupKey f3 "diferencia" = some (Analisis.round_num d 2) := by
      rw [fr3 _ (by decide), l2]
    have l4 := val4 _ l3 (isNumeric_round_num d 2 hdnum)
    have l5 : lookupKey f5 "diferencia" = lookupKey f4 "diferencia" :=
      fr5 _ (by decide)
    rw [Analisis.numField, l5, l4, Option.some_bind,
      asNum_round_num _ (roundQ (m - c) 2) 2 (asNum_round_num d (m - c) 2 hdval),
      roundQ_idem]
  · -- diferencia_%
    have l1 : lookupKey p1 "diferencia_%" =
        some (Analisis.round_num (.float ((m - c) / c * 100)) 4) :=
      lookupKey_dset_self _ _ _
    have l2 : lookupKey f2 "diferencia_%" = lookupKey p1 "diferencia_%" :=
      fr2 _ (by decide)
    have l3 : lookupKey f3 "diferencia_%" = lookupKey p1 "diferencia_%" := by
      rw [fr3 _ (by decide), l2]
    have l4 : lookupKey f4 "diferencia_%" = lookupKey p1 "diferencia_%" := by
      rw [fr4 _ (by decide), l3]
    rw [l1] at l4
    have l5 := val5 _ l4 (isNumeric_round_num _ 4 (by rfl))
    rw [Analisis.numField, l5, Option.some_bind,
      asNum_round_num _ (roundQ ((m - c) / c * 100) 4) 4
        (asNum_round_num (.float ((m - c) / c * 100)) ((m - c) / c * 100) 4 rfl),
      roundQ_idem]
  · -- costo_en_contrato
    obtain ⟨vc, hvc⟩ : ∃ v, lookupKey pd "costo_en_contrato" = some v := by
      cases hvc : lookupKey pd "costo_en_contrato" with
      | none =>
        exfalso
        rw [dget_eq_default _ _ _ hvc] at hc
        simp only [asNum, Option.some.injEq, Int.cast_zero] at hc
        exact hc0 hc.symm
      | some v => exact ⟨v, rfl⟩
    have hvcval : asNum vc = some c := by
      rw [dget_eq_of_lookup _ _ _ _ hvc] at hc
      exact hc
    have hvcn : isNumeric vc = true := by
      rw [isNumeric_eq_isSome, hvcval]
      rfl
    have l1 : lookupKey p1 "costo_en_contrato" = some vc := by
      rw [hp1, lookupKey_dset_ne _ _ _ _ (by decide),
        lookupKey_dset_ne _ _ _ _ (by decide), hvc]
    have l2 := val2 _ l1 hvcn
    have l3 : lookupKey f3 "costo_en_contrato" = lookupKey f2 "costo_en_contrato" :=
      fr3 _ (by decide)
    have l4 : lookupKey f4 "costo_en_contrato" = lookupKey f2 "costo_en_contrato" := by
      rw [fr4 _ (by decide), l3]
    have l5 : lookupKey f5 "costo_en_contrato" = lookupKey f2 "costo_en_contrato" := by
      rw [fr5 _ (by decide), l4]
    rw [Analisis.numField, l5, l2, Option.some_bind,
      asNum_round_num _ c 2 hvcval]
  · -- precio_estimado_mercado, only when present
    intro hpres
    obtain ⟨vm, hvm⟩ := Option.isSome_iff_exists.mp hpres
    have hvmval : asNum vm = some m := by
      rw [dget_eq_of_lookup _ _ _ _ hvm] at hm
      exact hm
    have hvmn : isNumeric vm = true := by
      rw [isNumeric_eq_isSome, hvmval]
      rfl
    have l1 : lookupKey p1 "precio_estimado_mercado" = some vm := by
      rw [hp1, lookupKey_dset_ne _ _ _ _ (by decide),
        lookupKey_dset_ne _ _ _ _ (by decide), hvm]
    have l2 : lookupKey f2 "precio_estimado_mercado" = some vm := by
      rw [fr2 _ (by decide), l1]
    have l3 := val3 _ l2 hvmn
    have l4 : lookupKey f4 "precio_estimado_mercado" = lookupKey f3 "precio_estimado_mercado" :=
      fr4 _ (by decide)
    have l5 : lookupKey f5 "precio_estimado_mercado" = lookupKey f3 "precio_estimado_mercado" := by
      rw [fr5 _ (by decide), l4]
    rw [Analisis.numField, l5, l3, Option.some_bind,
      asNum_round_num _ m 2 hvmval]
  · intro k hk
    simp only [Analisis.partidaFields, List.mem_cons, List.not_mem_nil,
      or_false] at hk
    push_neg at hk
    obtain ⟨h1, h2, h3, h4⟩ := hk
    rw [fr5 k h4, fr4 k h3, fr3 k h2, fr2 k h1, hp1,
      lookupKey_dset_ne _ _ _ _ h4, lookupKey_dset_ne _ _ _ _ h3]

theorem pySub_none_right (a b : PyVal) (hb : asNum b = Option.none) :
    pySub a b = Option.none := by
  cases a <;> cases b <;> simp_all [pySub, asIntVal, asNum]

theorem pySub_none_left (a b : PyVal) (ha : asNum a = Option.none) :
    pySub a b = Option.none := by
  cases a <;> cases b <;> simp_all [pySub, asIntVal, asNum]

theorem pyEqZero_of_asNum_none (v : PyVal) (h : asNum v = Option.none) :
    pyEqZero v = false := by
  cases v <;> simp_all [asNum, pyEqZero]

theorem adjustPartida_some (v w : PyVal) (h : Analisis.adjustPartida v = some w) :
    ∃ pd pd', v = .dict pd ∧ w = .dict pd' ∧
      (∀ k, ¬ k ∈ Analisis.partidaFields → lookupKey pd' k = lookupKey pd k) := by
  cases v with
  | dict pd =>
    refine ⟨pd, ?_⟩
    by_cases hcond : (!(pyTruthy (dget pd "costo_en_contrato" (.int 0)))
        || pyEqZero (dget pd "costo_en_contrato" (.int 0))) = true
    · obtain ⟨pd', e, _, _, fr⟩ := adjustPartida_zero pd hcond
      rw [e] at h
      have hw : PyVal.dict pd' = w := by simpa using h
      exact ⟨pd', rfl, hw.symm, fr⟩
    · have hcond' : (!(pyTruthy (dget pd "costo_en_contrato" (.int 0)))
          || pyEqZero (dget pd "costo_en_contrato" (.int 0))) = false := by
        simpa using hcond
      rw [Analisis.adjustPartida] at h
      simp only [Option.bind_eq_bind, pyDictGet, Option.some_bind] at h
      split at h
      · rename_i hcnd
        rw [hcond'] at hcnd
        exact absurd hcnd (by simp)
      · simp only [pySetStr, Option.some_bind, Option.bind_eq_some] at h
        obtain ⟨diff, hdiff, ratio, hratio, pct, hpct, h⟩ := h
        set p1 := dset (dset pd "diferencia" (Analisis.round_num diff 2))
          "diferencia_%" (Analisis.round_num pct 4) with hp1
        obtain ⟨f2, e2, fr2, _, _⟩ := adjustKey_dict p1 "costo_en_contrato" 2
        obtain ⟨f3, e3, fr3, _, _⟩ := adjustKey_dict f2 "precio_estimado_mercado" 2
        obtain ⟨f4, e4, fr4, _, _⟩ := adjustKey_dict f3 "diferencia" 2
        obtain ⟨f5, e5, fr5, _, _⟩ := adjustKey_dict f4 "diferencia_%" 4
        obtain ⟨a2, ha2, a3, ha3, a4, ha4, hlast⟩ := h
        rw [e2] at ha2
        obtain rfl : a2 = PyVal.dict f2 := (Option.some.inj ha2).symm
        rw [e3] at ha3
        obtain rfl : a3 = PyVal.dict f3 := (Option.some.inj ha3).symm
        rw [e4] at ha4
        obtain rfl : a4 = PyVal.dict f4 := (Option.some.inj ha4).symm
        rw [e5] at hlast
        have hw : PyVal.dict f5 = w := Option.some.inj hlast
        refine ⟨f5, rfl, hw.symm, ?_⟩
        intro k hk
        simp only [Analisis.partidaFields, List.mem_cons, List.not_mem_nil,
          or_false] at hk
        push_neg at hk
        obtain ⟨h1, h2, h3, h4⟩ := hk
        rw [fr5 k h4, fr4 k h3, fr3 k h2, fr2 k h1, hp1,
          lookupKey_dset_ne _ _ _ _ h4, lookupKey_dset_ne _ _ _ _ h3]
  | int n => simp [Analisis.adjustPartida, pyDictGet] at h
  | float q => simp [Analisis.adjustPartida, pyDictGet] at h
  | bool b => simp [Analisis.adjustPartida, pyDictGet] at h
  | str s => simp [Analisis.adjustPartida, pyDictGet] at h
  | none => simp [Analisis.adjustPartida, pyDictGet] at h
  | list xs => simp [Analisis.adjustPartida, pyDictGet] at h

theorem optMapM_some_length {α β : Type} (f : α → Option β) (xs : List α)
    (ys : List β) (h : optMapM f xs = some ys) : ys.length = xs.length := by
  induction xs generalizing ys with
  | nil =>
    simp only [optMapM, Option.some.injEq] at h
    rw [← h]
    rfl
  | cons x xs ih =>
    rw [optMapM] at h
    cases hfx : f x with
    | none => rw [hfx] at h; simp at h
    | some y =>
      rw [hfx] at h
      cases hrest : optMapM f xs with
      | none => rw [hrest] at h; simp at h
      | some ys' =>
        rw [hrest] at h
        simp only [Option.some.injEq] at h
        rw [← h]
        simp [ih ys' hrest]

theorem optMapM_some_get {α β : Type} (f : α → Option β) (xs : List α)
    (ys : List β) (h : optMapM f xs = some ys) :
    ∀ i (hi : i < xs.length) (hi' : i < ys.length),
      f (xs.get ⟨i, hi⟩) = some (ys.get ⟨i, hi'⟩) := by
  induction xs generalizing ys with
  | nil => intro i hi _; simp at hi
  | cons x xs ih =>
    rw [optMapM] at h
    cases hfx : f x with
    | none => rw [hfx] at h; simp at h
    | some y =>
      rw [hfx] at h
      cases hrest : optMapM f xs with
      | none => rw [hrest] at h; simp at h
      | some ys' =>
        rw [hrest] at h
        simp only [Option.some.injEq] at h
        subst h
        intro i hi hi'
        cases i with
        | zero => simpa using hfx
        | succ n =>
          simpa using ih ys' hrest n (by simpa using hi) (by simpa using hi')

theorem reconcile_elim (fs : List (String × PyVal)) (out : PyVal)
    (h : Analisis.reconcile (.dict fs) = some out) :
    (Analisis.requiredKeys.all (fun k => dmem fs k)) = true ∧
    ∃ rg' ps',
      Analisis.adjustResumen (dget fs "resumen_general" (.dict [])) = some rg' ∧
      Analisis.adjustPartidas (dget fs "partidas" (.list [])) = some ps' ∧
      out = .dict (dset (dset fs "resumen_general" rg') "partidas" ps') := by
  by_cases hall : (Analisis.requiredKeys.all (fun k => dmem fs k)) = true
  · refine ⟨hall, ?_⟩
    simp only [Analisis.reconcile] at h
    rw [Option.map_eq_some'] at h
    obtain ⟨res, hres, hout⟩ := h
    rw [Analisis.reconcileDict] at hres
    rw [if_pos hall] at hres
    cases hrg' : Analisis.adjustResumen (dget fs "resumen_general" (.dict [])) with
    | none => rw [hrg'] at hres; simp at hres
    | some rg' =>
      rw [hrg'] at hres
      simp only [] at hres
      cases hps' : Analisis.adjustPartidas
          (dget (dset fs "resumen_general" rg') "partidas" (.list [])) with
      | none => rw [hps'] at hres; simp at hres
      | some ps' =>
        rw [hps'] at hres
        simp only [Option.some.injEq] at hres
        have hdg : dget (dset fs "resumen_general" rg') "partidas" (.list []) =
            dget fs "partidas" (.list []) := by
          unfold dget
          rw [lookupKey_dset_ne _ _ _ _ (by decide)]
        rw [hdg] at hps'
        refine ⟨rg', ps', rfl, hps', ?_⟩
        rw [← hout, ← hres]
  · exfalso
    have hall' : (Analisis.requiredKeys.all (fun k => dmem fs k)) = false := by
      simpa using hall
    simp [Analisis.reconcile, Analisis.reconcileDict, hall'] at h

/-! ### Claim theorems: numeric reconciler -/

/-- C1: for every line item of the analysis record whose contract cost is
numeric and non-zero, after reconciliation `diferencia` equals
`round(precio_estimado_mercado - costo_en_contrato, 2)` and `diferencia_%`
equals `round(raw_diff / costo_en_contrato * 100, 4)` (the percentage is
computed from the unrounded difference); moreover currency fields are
rounded to 2 decimals and percentage fields to 4 decimals uniformly across
`resumen_general` and the partida. -/
theorem C1_line_item_and_rounding
    (fs : List (String × PyVal)) (out : PyVal)
    (rg : List (String × PyVal)) (ps : List PyVal)
    (i : Nat) (hi : i < ps.length) (pd : List (String × PyVal)) (c m : ℚ)
    (hrec : Analisis.reconcile (.dict fs) = some out)
    (hrg : lookupKey fs "resumen_general" = some (.dict rg))
    (hps : lookupKey fs "partidas" = some (.list ps))
    (hpd : ps.get ⟨i, hi⟩ = .dict pd)
    (hc : asNum (dget pd "costo_en_contrato" (.int 0)) = some c) (hc0 : c ≠ 0)
    (hm : asNum (dget pd "precio_estimado_mercado" (.int 0)) = some m) :
    ∃ fs' rg' ps',
      out = .dict fs' ∧
      lookupKey fs' "resumen_general" = some (.dict rg') ∧
      lookupKey fs' "partidas" = some (.list ps') ∧
      ps'.length = ps.length ∧
      (∀ hi' : i < ps'.length, ∃ pd',
        ps'.get ⟨i, hi'⟩ = .dict pd' ∧
        Analisis.numField pd' "diferencia" = some (roundQ (m - c) 2) ∧
        Analisis.numField pd' "diferencia_%" =
          some (roundQ ((m - c) / c * 100) 4) ∧
        Analisis.numField pd' "costo_en_contrato" = some (roundQ c 2) ∧
        ((lookupKey pd "precio_estimado_mercado").isSome = true →
          Analisis.numField pd' "precio_estimado_mercado" =
            some (roundQ m 2))) ∧
      (∀ k, k ∈ (["costo_en_contrato", "precio_estimado_mercado",
          "diferencia_total"] : List String) →
        ∀ q, Analisis.numField rg k = some q →
          Analisis.numField rg' k = some (roundQ q 2)) ∧
      (∀ q, Analisis.numField rg "diferencia_porcentaje" = some q →
        Analisis.numField rg' "diferencia_porcentaje" = some (roundQ q 4)) := by
  obtain ⟨hall, rg'', ps'', hrg'', hps'', hout⟩ := reconcile_elim fs out hrec
  rw [dget_eq_of_lookup _ _ _ _ hrg] at hrg''
  rw [dget_eq_of_lookup _ _ _ _ hps] at hps''
  obtain ⟨rgA, eA, frA, valA, valPA⟩ := adjustResumen_dict rg
  rw [eA] at hrg''
  obtain rfl : rg'' = PyVal.dict rgA := (Option.some.inj hrg'').symm
  simp only [Analisis.adjustPartidas] at hps''
  rw [Option.map_eq_some'] at hps''
  obtain ⟨ps2, hmap, hps2⟩ := hps''
  have hlen := optMapM_some_length _ _ _ hmap
  have hget := optMapM_some_get _ _ _ hmap i hi (by rw [hlen]; exact hi)
  rw [hpd] at hget
  obtain ⟨pdA, ePD, hdif, hdifp, hcosto, hprecio, frPD⟩ :=
    adjustPartida_nonzero pd c m hc hc0 hm
  rw [ePD] at hget
  refine ⟨dset (dset fs "resumen_general" (PyVal.dict rgA)) "partidas" ps'',
    rgA, ps2, hout, ?_, ?_, hlen, ?_, valA, valPA⟩
  · rw [lookupKey_dset_ne _ _ _ _ (by decide), lookupKey_dset_self]
  · rw [lookupKey_dset_self, ← hps2]
  · intro hi'
    exact ⟨pdA, (Option.some.inj hget).symm, hdif, hdifp, hcosto, hprecio⟩

/-- C2: for every line item of the analysis record whose contract cost is
zero, reconciliation forces both `diferencia` and `diferencia_%` to the
integer `0`, regardless of the market price value (which is never read on
this branch). -/
theorem C2_zero_contract_cost_forces_zero
    (fs : List (String × PyVal)) (out : PyVal) (ps : List PyVal)
    (i : Nat) (hi : i < ps.length) (pd : List (String × PyVal))
    (hrec : Analisis.reconcile (.dict fs) = some out)
    (hps : lookupKey fs "partidas" = some (.list ps))
    (hpd : ps.get ⟨i, hi⟩ = .dict pd)
    (hc : asNum (dget pd "costo_en_contrato" (.int 0)) = some 0) :
    ∃ fs' ps',
      out = .dict fs' ∧
      lookupKey fs' "partidas" = some (.list ps') ∧
      ps'.length = ps.length ∧
      ∀ hi' : i < ps'.length, ∃ pd',
        ps'.get ⟨i, hi'⟩ = .dict pd' ∧
        lookupKey pd' "diferencia" = some (.int 0) ∧
        lookupKey pd' "diferencia_%" = some (.int 0) := by
  obtain ⟨hall, rg'', ps'', hrg'', hps'', hout⟩ := reconcile_elim fs out hrec
  rw [dget_eq_of_lookup _ _ _ _ hps] at hps''
  simp only [Analisis.adjustPartidas] at hps''
  rw [Option.map_eq_some'] at hps''
  obtain ⟨ps2, hmap, hps2⟩ := hps''
  have hlen := optMapM_some_length _ _ _ hmap
  have hget := optMapM_some_get _ _ _ hmap i hi (by rw [hlen]; exact hi)
  rw [hpd] at hget
  have hcond : (!(pyTruthy (dget pd "costo_en_contrato" (.int 0)))
      || pyEqZero (dget pd "costo_en_contrato" (.int 0))) = true := by
    rw [pyTruthy_num _ _ hc, pyEqZero_num _ _ hc]
    simp
  obtain ⟨pdA, ePD, hdif, hdifp, _⟩ := adjustPartida_zero pd hcond
  rw [ePD] at hget
  refine ⟨dset (dset fs "resumen_general" rg'') "partidas" ps'', ps2, hout,
    ?_, hlen, ?_⟩
  · rw [lookupKey_dset_self, ← hps2]
  · intro hi'
    exact ⟨pdA, (Option.some.inj hget).symm, hdif, hdifp⟩

/-- C3 counterexample: a line item whose `costo_en_contrato` is present,
truthy and non-numeric (the string `"abc"`) makes the reconciliation step
fail (the subtraction raises `TypeError`), so the error branch is
reachable and non-numeric costs are not defaulted to `0`. -/
theorem C3_counterexample :
    Analisis.reconcile (.dict [("resumen_general", .dict []),
      ("partidas", .list [.dict [("costo_en_contrato", .str "abc")]]),
      ("alertas", .list []), ("recomendaciones", .list [])]) = Option.none := rfl

/-- C3 (amended): a line item whose contract cost is absent or falsy is
handled totally — the forced-zero branch applies and reconciliation of the
item succeeds without reading the market price, even when a non-numeric
market price is present — but when the contract cost is truthy the
subtraction branch runs and the step is not total: it raises (`TypeError`
in the subtraction) when the contract cost is non-numeric, and likewise
when the contract cost is numeric but a present market price is
non-numeric. -/
theorem C3_amended_cost_default_totality (pd : List (String × PyVal)) :
    (pyTruthy (dget pd "costo_en_contrato" (.int 0)) = false →
      ∃ pd', Analisis.adjustPartida (.dict pd) = some (.dict pd') ∧
        lookupKey pd' "diferencia" = some (.int 0) ∧
        lookupKey pd' "diferencia_%" = some (.int 0)) ∧
    (pyTruthy (dget pd "costo_en_contrato" (.int 0)) = true →
      asNum (dget pd "costo_en_contrato" (.int 0)) = Option.none →
      Analisis.adjustPartida (.dict pd) = Option.none) ∧
    (pyTruthy (dget pd "costo_en_contrato" (.int 0)) = true →
      isNumeric (dget pd "costo_en_contrato" (.int 0)) = true →
      asNum (dget pd "precio_estimado_mercado" (.int 0)) = Option.none →
      Analisis.adjustPartida (.dict pd) = Option.none) := by
  refine ⟨?_, ?_, ?_⟩
  · intro hf
    obtain ⟨pd', e, h1, h2, _⟩ := adjustPartida_zero pd (by rw [hf]; simp)
    exact ⟨pd', e, h1, h2⟩
  · intro ht hnone
    have hcond : (!(pyTruthy (dget pd "costo_en_contrato" (.int 0)))
        || pyEqZero (dget pd "costo_en_contrato" (.int 0))) = false := by
      rw [ht, pyEqZero_of_asNum_none _ hnone]
      rfl
    have hsub : pySub (dget pd "precio_estimado_mercado" (.int 0))
        (dget pd "costo_en_contrato" (.int 0)) = Option.none :=
      pySub_none_right _ _ hnone
    simp [Analisis.adjustPartida, pyDictGet, hcond, hsub]
    intro hor
    exfalso
    rcases hor with hf | hz
    · rw [ht] at hf
      exact absurd hf (by simp)
    · rw [pyEqZero_of_asNum_none _ hnone] at hz
      exact absurd hz (by simp)
  · intro ht hnum hmnone
    obtain ⟨c, hc⟩ : ∃ c, asNum (dget pd "costo_en_contrato" (.int 0)) = some c := by
      rw [isNumeric_eq_isSome] at hnum
      exact Option.isSome_iff_exists.mp hnum
    have htr := pyTruthy_num _ _ hc
    rw [ht] at htr
    have hc0 : decide (c = 0) = false := by
      cases hdec : decide (c = 0) with
      | false => rfl
      | true => rw [hdec] at htr; simp at htr
    have hcond : (!(pyTruthy (dget pd "costo_en_contrato" (.int 0)))
        || pyEqZero (dget pd "costo_en_contrato" (.int 0))) = false := by
      rw [ht, pyEqZero_num _ _ hc, hc0]
      rfl
    have hsub : pySub (dget pd "precio_estimado_mercado" (.int 0))
        (dget pd "costo_en_contrato" (.int 0)) = Option.none :=
      pySub_none_left _ _ hmnone
    simp [Analisis.adjustPartida, pyDictGet, hcond, hsub]
    intro hor
    exfalso
    rcases hor with hf | hz
    · rw [ht] at hf
      exact absurd hf (by simp)
    · rw [pyEqZero_num _ _ hc, hc0] at hz
      exact absurd hz (by simp)

/-- C10: reconciliation mutates only the four numeric fields of
`resumen_general` and the four numeric fields of each partida; every other
key and value — including `concepto`, `unidad`, `cantidad`,
`observaciones`, `credibilidad` (never rounded), `alertas`,
`recomendaciones` and any extra top-level keys — is left unchanged, and
`partidas` keeps its length. -/
theorem C10_reconcile_frame
    (fs : List (String × PyVal)) (out : PyVal)
    (rg : List (String × PyVal)) (ps : List PyVal)
    (hrec : Analisis.reconcile (.dict fs) = some out)
    (hrg : lookupKey fs "resumen_general" = some (.dict rg))
    (hps : lookupKey fs "partidas" = some (.list ps)) :
    ∃ fs' rg' ps',
      out = .dict fs' ∧
      lookupKey fs' "resumen_general" = some (.dict rg') ∧
      lookupKey fs' "partidas" = some (.list ps') ∧
      (∀ k, k ≠ "resumen_general" → k ≠ "partidas" →
        lookupKey fs' k = lookupKey fs k) ∧
      (∀ k, ¬ k ∈ Analisis.resumenFields → lookupKey rg' k = lookupKey rg k) ∧
      ps'.length = ps.length ∧
      (∀ i (hi : i < ps.length) (hi' : i < ps'.length),
        ∃ pd pd', ps.get ⟨i, hi⟩ = .dict pd ∧ ps'.get ⟨i, hi'⟩ = .dict pd' ∧
          ∀ k, ¬ k ∈ Analisis.partidaFields →
            lookupKey pd' k = lookupKey pd k) := by
  obtain ⟨hall, rg'', ps'', hrg'', hps'', hout⟩ := reconcile_elim fs out hrec
  rw [dget_eq_of_lookup _ _ _ _ hrg] at hrg''
  rw [dget_eq_of_lookup _ _ _ _ hps] at hps''
  obtain ⟨rgA, eA, frA, _, _⟩ := adjustResumen_dict rg
  rw [eA] at hrg''
  obtain rfl : rg'' = PyVal.dict rgA := (Option.some.inj hrg'').symm
  simp only [Analisis.adjustPartidas] at hps''
  rw [Option.map_eq_some'] at hps''
  obtain ⟨ps2, hmap, hps2⟩ := hps''
  have hlen := optMapM_some_length _ _ _ hmap
  refine ⟨dset (dset fs "resumen_general" (PyVal.dict rgA)) "partidas" ps'',
    rgA, ps2, hout, ?_, ?_, ?_, frA, hlen, ?_⟩
  · rw [lookupKey_dset_ne _ _ _ _ (by decide), lookupKey_dset_self]
  · rw [lookupKey_dset_self, ← hps2]
  · intro k hk1 hk2
    rw [lookupKey_dset_ne _ _ _ _ hk2, lookupKey_dset_ne _ _ _ _ hk1]
  · intro i hi hi'
    have hget := optMapM_some_get _ _ _ hmap i hi (by rw [hlen]; exact hi)
    obtain ⟨pd, pd', hv, hw, fr⟩ := adjustPartida_some _ _ hget
    exact ⟨pd, pd', hv, hw, fr⟩

set_option maxHeartbeats 1000000 in
/-- Witness for C1 at a concrete record: contract cost 100, market price
150 reconcile to `diferencia = 50` and `diferencia_% = 50`. -/
theorem C1_witness :
    ∃ out fs' rg' ps',
      Analisis.reconcile (.dict [("resumen_general", .dict []),
        ("partidas", .list [.dict [("costo_en_contrato", .int 100),
          ("precio_estimado_mercado", .int 150)]]),
        ("alertas", .list []), ("recomendaciones", .list [])]) = some out ∧
      out = .dict fs' ∧
      lookupKey fs' "resumen_general" = some (.dict rg') ∧
      lookupKey fs' "partidas" = some (.list ps') ∧
      (∀ hi' : 0 < ps'.length, ∃ pd',
        ps'.get ⟨0, hi'⟩ = .dict pd' ∧
        Analisis.numField pd' "diferencia" = some 50 ∧
        Analisis.numField pd' "diferencia_%" = some 50) := by
  have hsome : (Analisis.reconcile (.dict [("resumen_general", .dict []),
      ("partidas", .list [.dict [("costo_en_contrato", .int 100),
        ("precio_estimado_mercado", .int 150)]]),
      ("alertas", .list []), ("recomendaciones", .list [])])).isSome = true := by
    simp [Analisis.reconcile, Analisis.reconcileDict, Analisis.adjustResumen,
      Analisis.adjustKey, Analisis.adjustPartidas, Analisis.adjustPartida,
      optMapM, pyContains, pyIndexStr, pySetStr, pyDictGet, dmem, dget, dset,
      lookupKey, Analisis.requiredKeys, pyTruthy, pyEqZero, pySub, pyDiv,
      pyMul, asIntVal, asNum, isNumeric, Analisis.round_num, pyIsStr]
  obtain ⟨out, hrec⟩ := Option.isSome_iff_exists.mp hsome
  obtain ⟨fs', rg', ps', h1, h2, h3, h4, h5, h6, h7⟩ :=
    C1_line_item_and_rounding _ out _ _ 0 (by decide) _ ((100 : ℤ) : ℚ)
      ((150 : ℤ) : ℚ) hrec rfl rfl rfl rfl (by norm_num) rfl
  have e1 : roundQ (((150 : ℤ) : ℚ) - ((100 : ℤ) : ℚ)) 2 = 50 := by
    have h : (((150 : ℤ) : ℚ) - ((100 : ℤ) : ℚ)) = ((50 : ℤ) : ℚ) := by
      push_cast
      norm_num
    rw [h, roundQ_intCast]
    norm_num
  have e2 : roundQ ((((150 : ℤ) : ℚ) - ((100 : ℤ) : ℚ)) / ((100 : ℤ) : ℚ) * 100) 4 = 50 := by
    have h : ((((150 : ℤ) : ℚ) - ((100 : ℤ) : ℚ)) / ((100 : ℤ) : ℚ) * 100) = ((50 : ℤ) : ℚ) := by
      push_cast
      norm_num
    rw [h, roundQ_intCast]
    norm_num
  refine ⟨out, fs', rg', ps', hrec, h1, h2, h3, ?_⟩
  intro hi'
  obtain ⟨pd', hp, hd, hdp, _, _⟩ := h5 hi'
  refine ⟨pd', hp, ?_, ?_⟩
  · rw [hd, e1]
  · rw [hdp, e2]

/-- Witness for C2 at a concrete record: contract cost exactly `0` and a
non-numeric market price still reconcile to `diferencia = 0` and
`diferencia_% = 0`. -/
theorem C2_witness :
    ∃ out fs' ps',
      Analisis.reconcile (.dict [("resumen_general", .dict []),
        ("partidas", .list [.dict [("costo_en_contrato", .int 0),
          ("precio_estimado_mercado", .str "N/A")]]),
        ("alertas", .list []), ("recomendaciones", .list [])]) = some out ∧
      out = .dict fs' ∧
      lookupKey fs' "partidas" = some (.list ps') ∧
      ps'.length = 1 ∧
      (∀ hi' : 0 < ps'.length, ∃ pd',
        ps'.get ⟨0, hi'⟩ = .dict pd' ∧
        lookupKey pd' "diferencia" = some (.int 0) ∧
        lookupKey pd' "diferencia_%" = some (.int 0)) := by
  obtain ⟨out, hrec⟩ : ∃ out,
      Analisis.reconcile (.dict [("resumen_general", .dict []),
        ("partidas", .list [.dict [("costo_en_contrato", .int 0),
          ("precio_estimado_mercado", .str "N/A")]]),
        ("alertas", .list []), ("recomendaciones", .list [])]) = some out :=
    ⟨_, rfl⟩
  obtain ⟨fs', ps', h1, h2, h3, h4⟩ :=
    C2_zero_contract_cost_forces_zero _ out _ 0 (by decide) _ hrec rfl rfl
      (by simp [dget, lookupKey, List.find?, asNum])
  exact ⟨out, fs', ps', hrec, h1, h2, by rw [h3]; rfl, h4⟩

/-- Witness for C3 (amended): the empty partida (absent cost, so the falsy
default `0` applies) reconciles with zeros; a partida whose cost is the
string `"x"` makes the step raise; and so does one whose cost is the
number `5` but whose market price is the string `"abc"`. -/
theorem C3_witness :
    (∃ pd', Analisis.adjustPartida (.dict []) = some (.dict pd') ∧
      lookupKey pd' "diferencia" = some (.int 0) ∧
      lookupKey pd' "diferencia_%" = some (.int 0)) ∧
    Analisis.adjustPartida (.dict [("costo_en_contrato", .str "x")]) =
      Option.none ∧
    Analisis.adjustPartida (.dict [("costo_en_contrato", .int 5),
      ("precio_estimado_mercado", .str "abc")]) = Option.none := by
  refine ⟨?_, ?_, ?_⟩
  · exact (C3_amended_cost_default_totality []).1 rfl
  · exact (C3_amended_cost_default_totality
      [("costo_en_contrato", .str "x")]).2.1 rfl rfl
  · exact (C3_amended_cost_default_totality
      [("costo_en_contrato", .int 5),
       ("precio_estimado_mercado", .str "abc")]).2.2 rfl rfl rfl

/-- Witness for C10 at a concrete record with an extra top-level key:
`credibilidad`, `concepto`, `alertas` and the extra key survive
reconciliation unchanged. -/
theorem C10_witness :
    ∃ out fs' rg' ps',
      Analisis.reconcile (.dict [("resumen_general", .dict [("credibilidad", .int 85)]),
        ("partidas", .list [.dict [("concepto", .str "muro"),
          ("costo_en_contrato", .int 0)]]),
        ("alertas", .list [.str "a1"]), ("recomendaciones", .list []),
        ("extra", .str "kept")]) = some out ∧
      out = .dict fs' ∧
      lookupKey fs' "resumen_general" = some (.dict rg') ∧
      lookupKey fs' "partidas" = some (.list ps') ∧
      lookupKey rg' "credibilidad" = some (.int 85) ∧
      lookupKey fs' "extra" = some (.str "kept") ∧
      lookupKey fs' "alertas" = some (.list [.str "a1"]) ∧
      ps'.length = 1 := by
  obtain ⟨out, hrec⟩ : ∃ out,
      Analisis.reconcile (.dict [("resumen_general", .dict [("credibilidad", .int 85)]),
        ("partidas", .list [.dict [("concepto", .str "muro"),
          ("costo_en_contrato", .int 0)]]),
        ("alertas", .list [.str "a1"]), ("recomendaciones", .list []),
        ("extra", .str "kept")]) = some out :=
    ⟨_, rfl⟩
  obtain ⟨fs', rg', ps', h1, h2, h3, h4, h5, h6, h7⟩ :=
    C10_reconcile_frame _ out _ _ hrec rfl rfl
  refine ⟨out, fs', rg', ps', hrec, h1, h2, h3, ?_, ?_, ?_, by rw [h6]; rfl⟩
  · rw [h5 "credibilidad" (by decide)]
    rfl
  · rw [h4 "extra" (by decide) (by decide)]
    rfl
  · rw [h4 "alertas" (by decide) (by decide)]
    rfl

/-! ### Claim theorems: schema validator, model selectors, orchestrator -/

/-- C4: for every analysis record missing at least one required top-level
key, the schema validator of `api_master.py` fails with an error listing
exactly the set of missing keys — the set difference between the required
keys and the record's present keys — not a generic message. -/
theorem C4_validator_exact_missing_keys (fs : List (String × PyVal))
    (hmiss : ∃ k, k ∈ Analisis.requiredKeys ∧ dmem fs k = false) :
    ∃ l, Master.validar_llaves (.dict fs) = some (Except.error l) ∧
      l ≠ [] ∧
      (∀ k, k ∈ l ↔ (k ∈ Analisis.requiredKeys ∧ dmem fs k = false)) := by
  have haux : ∀ ks : List String, Master.faltantesAux (.dict fs) ks =
      some (ks.filter (fun k => !(dmem fs k))) := by
    intro ks
    induction ks with
    | nil => rfl
    | cons k ks ih =>
      by_cases h : dmem fs k = true <;>
        simp [Master.faltantesAux, pyContains, ih, List.filter_cons, h]
  have hL : Master.faltantes (.dict fs) =
      some (Analisis.requiredKeys.filter (fun k => !(dmem fs k))) :=
    haux Analisis.requiredKeys
  obtain ⟨k0, hk0r, hk0m⟩ := hmiss
  have hmem : k0 ∈ Analisis.requiredKeys.filter (fun k => !(dmem fs k)) := by
    rw [List.mem_filter]
    exact ⟨hk0r, by rw [hk0m]; rfl⟩
  have hne : Analisis.requiredKeys.filter (fun k => !(dmem fs k)) ≠ [] := by
    intro hc
    rw [hc] at hmem
    exact absurd hmem (List.not_mem_nil k0)
  refine ⟨Analisis.requiredKeys.filter (fun k => !(dmem fs k)), ?_, hne, ?_⟩
  · rw [Master.validar_llaves, hL]
    simp [List.isEmpty_iff, hne]
  · intro k
    rw [List.mem_filter]
    constructor
    · rintro ⟨h1, h2⟩
      exact ⟨h1, by simpa using h2⟩
    · rintro ⟨h1, h2⟩
      exact ⟨h1, by simp [h2]⟩

/-- Witness for C4: a record missing only `alertas` fails with exactly
`["alertas"]`. -/
theorem C4_witness :
    Master.validar_llaves (.dict [("resumen_general", .dict []),
      ("partidas", .list []), ("recomendaciones", .list [])]) =
      some (Except.error ["alertas"]) ∧
    (∃ l, Master.validar_llaves (.dict [("resumen_general", .dict []),
      ("partidas", .list []), ("recomendaciones", .list [])]) =
        some (Except.error l) ∧ l ≠ [] ∧
      (∀ k, k ∈ l ↔ (k ∈ Analisis.requiredKeys ∧
        dmem [("resumen_general", PyVal.dict []), ("partidas", PyVal.list []),
          ("recomendaciones", PyVal.list [])] k = false))) := by
  constructor
  · rfl
  · exact C4_validator_exact_missing_keys _ ⟨"alertas", by decide, rfl⟩

/-- C5 counterexample: with a single candidate whose
`max_completion_tokens` probe raises and whose `max_tokens` probe
succeeds, the PDF-stage selector issues two probes to that candidate — not
exactly one — before returning it. -/
theorem C5_counterexample :
    ((Parseo.first_available_model (fun _ => false) (fun _ => true)
        ["m1"]).1.map ApiCall.target).count "m1" = 2 ∧
    (Parseo.first_available_model (fun _ => false) (fun _ => true)
        ["m1"]).2 = some "m1" := by
  constructor <;> rfl

/-- The probing loop of the analysis-stage selector stops at the first
candidate whose probe succeeds, having probed exactly the failing prefix
and that candidate, and leaves that candidate selected. -/
theorem probeLoop_first_success (ok : String → Bool) (pre : List String)
    (m : String) (post : List String) (hpre : ∀ x ∈ pre, ok x = false)
    (hm : ok m = true) :
    Analisis.probeLoop ok (pre ++ m :: post) =
      (pre.map ApiCall.probeMaxTokens ++ [ApiCall.probeMaxTokens m], some m) := by
  induction pre with
  | nil => simp [Analisis.probeLoop, hm]
  | cons x xs ih =>
    have hx : ok x = false := hpre x (by simp)
    have hxs : ∀ y ∈ xs, ok y = false := fun y hy => hpre y (by simp [hy])
    simp [Analisis.probeLoop, hx, ih hxs]

/-- When every candidate's probe fails, the probing loop of the
analysis-stage selector leaves no candidate selected. -/
theorem probeLoop_all_fail (ok : String → Bool) (candidates : List String)
    (h : ∀ m ∈ candidates, ok m = false) :
    (Analisis.probeLoop ok candidates).2 = Option.none := by
  induction candidates with
  | nil => rfl
  | cons x xs ih =>
    have hx := h x (by simp)
    simp [Analisis.probeLoop, hx, ih (fun y hy => h y (by simp [hy]))]

/-- C5 (amended): both selectors probe candidates in list order and
short-circuit at the first success, issuing no probes to later candidates;
the analysis-stage selector issues exactly one `max_tokens` probe per
attempted candidate and returns the first succeeding candidate provided it
is a truthy (non-empty) string — a succeeding empty-string candidate still
raises at the final `if not selected:` truthiness guard — while the
PDF-stage selector issues a `max_completion_tokens` probe and, only if
that raises, a second `max_tokens` probe of the same candidate, and
returns the succeeding candidate unconditionally. -/
theorem C5_selector_order_and_probes :
    (∀ (ok : String → Bool) (pre : List String) (m : String) (post : List String),
      (∀ x ∈ pre, ok x = false) → ok m = true → m ≠ "" →
      Analisis.first_available_model ok (pre ++ m :: post) =
        (pre.map ApiCall.probeMaxTokens ++ [ApiCall.probeMaxTokens m], some m)) ∧
    (∀ (ok : String → Bool) (pre : List String) (post : List String),
      (∀ x ∈ pre, ok x = false) → ok "" = true →
      Analisis.first_available_model ok (pre ++ "" :: post) =
        (pre.map ApiCall.probeMaxTokens ++ [ApiCall.probeMaxTokens ""],
         Option.none)) ∧
    (∀ (okMC okMT : String → Bool) (pre : List String) (m : String)
        (post : List String),
      (∀ x ∈ pre, okMC x = false ∧ okMT x = false) →
      (okMC m = true ∨ okMT m = true) →
      Parseo.first_available_model okMC okMT (pre ++ m :: post) =
        ((pre.map (fun x => [ApiCall.probeMaxCompletion x,
            ApiCall.probeMaxTokens x])).join ++
          (if okMC m then [ApiCall.probeMaxCompletion m]
           else [ApiCall.probeMaxCompletion m, ApiCall.probeMaxTokens m]),
         some m)) := by
  refine ⟨?_, ?_, ?_⟩
  · intro ok pre m post hpre hm hne
    have hbeq : (m == "") = false := beq_eq_false_iff_ne.mpr hne
    simp [Analisis.first_available_model,
      probeLoop_first_success ok pre m post hpre hm, hbeq]
  · intro ok pre post hpre hm
    simp [Analisis.first_available_model,
      probeLoop_first_success ok pre "" post hpre hm]
  · intro okMC okMT pre m post hpre hm
    induction pre with
    | nil =>
      by_cases hmc : okMC m = true
      · simp [Parseo.first_available_model, hmc]
      · have hmc' : okMC m = false := by simpa using hmc
        have hmt : okMT m = true := by
          rcases hm with h | h
          · rw [hmc'] at h
            exact absurd h (by simp)
          · exact h
        simp [Parseo.first_available_model, hmc', hmt]
    | cons x xs ih =>
      obtain ⟨hx1, hx2⟩ := hpre x (by simp)
      have hxs : ∀ y ∈ xs, okMC y = false ∧ okMT y = false :=
        fun y hy => hpre y (by simp [hy])
      simp [Parseo.first_available_model, hx1, hx2, ih hxs]

/-- Witness for C5 (amended): with only `m2` reachable the analysis-stage
selector probes `m1` then `m2` and returns `m2`; a succeeding empty-string
candidate is probed but the selector still raises; with a candidate whose
first probe raises, the PDF-stage selector issues both probe kinds and
returns it. -/
theorem C5_witness :
    Analisis.first_available_model (fun m => m == "m2") ["m1", "m2", "m3"] =
      ([ApiCall.probeMaxTokens "m1", ApiCall.probeMaxTokens "m2"], some "m2") ∧
    Analisis.first_available_model (fun _ => true) ["", "mx"] =
      ([ApiCall.probeMaxTokens ""], Option.none) ∧
    Parseo.first_available_model (fun _ => false) (fun _ => true) ["p1"] =
      ([ApiCall.probeMaxCompletion "p1", ApiCall.probeMaxTokens "p1"],
       some "p1") := by
  refine ⟨?_, ?_, ?_⟩
  · have h := C5_selector_order_and_probes.1 (fun m => m == "m2") ["m1"]
      "m2" ["m3"] (by decide) rfl (by decide)
    simpa using h
  · have h := C5_selector_order_and_probes.2.1 (fun _ => true) [] ["mx"]
      (by simp) rfl
    simpa using h
  · have h := C5_selector_order_and_probes.2.2 (fun _ => false) (fun _ => true)
      [] "p1" [] (by simp) (Or.inr rfl)
    simpa using h

/-- C6: given an empty candidate list, or one in which every candidate's
probe fails (both probe kinds for the PDF-stage selector), the selector
never returns a model identifier — it raises, the spec's
`NoAvailableModelError` (a `RuntimeError` in the code). -/
theorem C6_all_candidates_fail :
    (∀ (ok : String → Bool) (candidates : List String),
      (∀ m ∈ candidates, ok m = false) →
      (Analisis.first_available_model ok candidates).2 = Option.none) ∧
    (∀ (okMC okMT : String → Bool) (candidates : List String),
      (∀ m ∈ candidates, okMC m = false ∧ okMT m = false) →
      (Parseo.first_available_model okMC okMT candidates).2 = Option.none) := by
  constructor
  · intro ok cands h
    simp [Analisis.first_available_model, probeLoop_all_fail ok cands h]
  · intro okMC okMT cands h
    induction cands with
    | nil => rfl
    | cons x xs ih =>
      obtain ⟨hx1, hx2⟩ := h x (by simp)
      simp [Parseo.first_available_model, hx1, hx2,
        ih (fun y hy => h y (by simp [hy]))]

/-- Witness for C6: both selectors fail on a fully-unreachable list and on
the empty list. -/
theorem C6_witness :
    (Analisis.first_available_model (fun _ => false) ["m1", "m2"]).2 =
      Option.none ∧
    (Parseo.first_available_model (fun _ => false) (fun _ => false) []).2 =
      Option.none := by
  constructor
  · exact C6_all_candidates_fail.1 (fun _ => false) ["m1", "m2"] (by simp)
  · exact C6_all_candidates_fail.2 (fun _ => false) (fun _ => false) []
      (by simp)

/-- C7: in a pipeline run with intermediate persistence requested, when
the final schema validation fails the orchestrator raises and persists no
final artifact (for any output path), while the intermediate contract
artifact written right after extraction remains persisted — the write
trace is exactly the intermediate write. -/
theorem C7_intermediate_persists
    (pI : String) (ruta_salida : Option String)
    (parse : String → Option PyVal) (analyze : String → Option String)
    (s fstr : String) (cj fj : PyVal) (l : List String)
    (hparse1 : parse s = some cj)
    (hanalyze : analyze s = some fstr)
    (hparse2 : parse fstr = some fj)
    (hval : Master.validar_llaves fj = some (Except.error l)) :
    Master.analizar_obras_completo true (some s) parse analyze ruta_salida
      (some pI) true = ([(pI, cj)], Option.none) := by
  simp [Master.analizar_obras_completo, hparse1, hanalyze, hparse2, hval]

/-- Witness for C7: a concrete run in which the analysis stage returns a
record with no required keys; only the intermediate artifact is written. -/
theorem C7_witness :
    Master.analizar_obras_completo true (some "C")
      (fun str => if str == "C" then some (.dict [("proyecto", .str "obra")])
        else if str == "F" then some (.dict []) else Option.none)
      (fun _ => some "F") (some "final.json") (some "inter.json") true =
      ([("inter.json", PyVal.dict [("proyecto", PyVal.str "obra")])],
       Option.none) :=
  C7_intermediate_persists "inter.json" (some "final.json") _ _ "C" "F"
    (PyVal.dict [("proyecto", PyVal.str "obra")]) (PyVal.dict [])
    ["resumen_general", "partidas", "alertas", "recomendaciones"]
    rfl rfl rfl rfl

/-! ### Supporting lemmas: prompt builders -/

theorem countOcc_zero_replace (pat rep : List Char) :
    ∀ (n : Nat) (s : List Char), s.length ≤ n → countOcc pat s = 0 →
      pyReplaceL pat rep s = s := by
  intro n
  induction n with
  | zero =>
    intro s hs h
    cases s with
    | nil => simp [pyReplaceL]
    | cons c cs => simp at hs
  | succ n ih =>
    intro s hs h
    cases s with
    | nil => simp [pyReplaceL]
    | cons c cs =>
      by_cases hp : (!pat.isEmpty && pat.isPrefixOf (c :: cs)) = true
      · rw [countOcc, if_pos hp] at h
        omega
      · have hp' : (!pat.isEmpty && pat.isPrefixOf (c :: cs)) = false := by
          rw [Bool.not_eq_true] at hp
          exact hp
        rw [countOcc, hp'] at h
        simp only [Bool.false_eq_true, if_false] at h
        rw [pyReplaceL, hp']
        simp only [Bool.false_eq_true, if_false, List.cons.injEq, true_and]
        exact ih cs (by simp only [List.length_cons] at hs; omega) h

theorem countOcc_one_replace (pat rep : List Char) (hpat : pat ≠ []) :
    ∀ (n : Nat) (s : List Char), s.length ≤ n → countOcc pat s = 1 →
      ∃ pre suf, s = pre ++ pat ++ suf ∧ countOcc pat suf = 0 ∧
        pyReplaceL pat rep s = pre ++ rep ++ suf := by
  intro n
  induction n with
  | zero =>
    intro s hs h
    cases s with
    | nil => simp [countOcc] at h
    | cons c cs => simp at hs
  | succ n ih =>
    intro s hs h
    cases s with
    | nil => simp [countOcc] at h
    | cons c cs =>
      by_cases hp : (!pat.isEmpty && pat.isPrefixOf (c :: cs)) = true
      · have hpre : pat.isPrefixOf (c :: cs) = true := by
          have hp2 := hp
          rw [Bool.and_eq_true] at hp2
          exact hp2.2
        obtain ⟨t, ht⟩ : pat <+: (c :: cs) :=
          List.isPrefixOf_iff_prefix.mp hpre
        have hdrop : (c :: cs).drop pat.length = t := by
          rw [← ht]
          exact List.drop_left pat t
        rw [countOcc, if_pos hp, hdrop] at h
        have ht0 : countOcc pat t = 0 := by omega
        refine ⟨[], t, by simpa using ht.symm, ht0, ?_⟩
        rw [pyReplaceL, if_pos hp, hdrop,
          countOcc_zero_replace pat rep t.length t le_rfl ht0]
        simp
      · have hp' : (!pat.isEmpty && pat.isPrefixOf (c :: cs)) = false := by
          rw [Bool.not_eq_true] at hp
          exact hp
        rw [countOcc, hp'] at h
        simp only [Bool.false_eq_true, if_false] at h
        obtain ⟨pre, suf, hsplit, h0, hrepl⟩ := ih cs
          (by simp only [List.length_cons] at hs; omega) h
        refine ⟨c :: pre, suf, by simp [hsplit], h0, ?_⟩
        rw [pyReplaceL, hp']
        simp only [Bool.false_eq_true, if_false]
        rw [hrepl]
        simp

theorem pyFormatL_bracefree (payload : List Char) :
    ∀ s, (∀ c ∈ s, c ≠ lbrace ∧ c ≠ rbrace) →
      pyFormatL payload s = some s := by
  intro s hs
  induction s with
  | nil => rw [pyFormatL.eq_def]
  | cons c cs ih =>
    obtain ⟨h1, h2⟩ := hs c (by simp)
    have ih' := ih (fun d hd => hs d (by simp [hd]))
    rw [pyFormatL.eq_def]
    simp [h1, h2, ih']

theorem contenido_chars_ok : ∀ c ∈ contenidoChars, (!(c == rbrace)) = true := by
  decide

theorem takeWhile_contenido (suf : List Char) :
    (contenidoChars ++ rbrace :: suf).takeWhile (fun d => !(d == rbrace)) =
      contenidoChars := by
  have : ∀ (l : List Char), (∀ c ∈ l, (!(c == rbrace)) = true) →
      (l ++ rbrace :: suf).takeWhile (fun d => !(d == rbrace)) = l := by
    intro l hl
    induction l with
    | nil => simp [List.takeWhile_cons]
    | cons a as ihl =>
      have ha := hl a (by simp)
      simp [List.takeWhile_cons, ha, ihl (fun d hd => hl d (by simp [hd]))]
  exact this contenidoChars contenido_chars_ok

theorem drop_contenido (suf : List Char) :
    (contenidoChars ++ rbrace :: suf).drop (contenidoChars.length + 1) = suf := by
  simp [contenidoChars]

theorem pyFormatL_subst (payload : List Char) :
    ∀ pre suf, (∀ c ∈ pre, c ≠ lbrace ∧ c ≠ rbrace) →
      (∀ c ∈ suf, c ≠ lbrace ∧ c ≠ rbrace) →
      pyFormatL payload (pre ++ lbrace :: (contenidoChars ++ rbrace :: suf)) =
        some (pre ++ payload ++ suf) := by
  intro pre
  induction pre with
  | nil =>
    intro suf hpre hsuf
    have hsufOK := pyFormatL_bracefree payload suf hsuf
    have hlb : ¬ (('c' : Char) = lbrace) := by decide
    have hlen : ¬ (((contenidoChars ++ rbrace :: suf).takeWhile
        (fun d => !(d == rbrace))).length =
          (contenidoChars ++ rbrace :: suf).length) := by
      rw [takeWhile_contenido]
      simp only [List.length_append, List.length_cons, contenidoChars]
      simp
    simp only [List.nil_append]
    rw [pyFormatL.eq_def]
    rw [show contenidoChars ++ rbrace :: suf =
      'c' :: ("ontenido".toList ++ rbrace :: suf) from rfl]
    simp only [if_pos rfl, hlb, if_false]
    rw [show ('c' :: ("ontenido".toList ++ rbrace :: suf)) =
      contenidoChars ++ rbrace :: suf from rfl]
    rw [if_neg hlen, takeWhile_contenido, if_pos rfl, drop_contenido, hsufOK]
    rfl
  | cons c cs ih =>
    intro suf hpre hsuf
    obtain ⟨h1, h2⟩ := hpre c (by simp)
    have ih' := ih suf (fun d hd => hpre d (by simp [hd])) hsuf
    rw [pyFormatL.eq_def]
    simp [h1, h2, ih']

/-! ### Claim theorems: prompt builders and folder stage -/

/-- C8 counterexample: the extraction-stage builder is not verbatim
marker substitution and is not total: on the template
`\x7b\x7ba\x7d\x7d \x7bcontenido\x7d` with payload `P` it yields
`\x7ba\x7d P`, while replacing the single marker `\x7bcontenido\x7d`
verbatim (computed with the replace-scan model) yields
`\x7b\x7ba\x7d\x7d P` — a different string — and on the template
`\x7bx\x7d` it fails with `KeyError`. -/
theorem C8_counterexample :
    Parseo.buildPrompt "\x7b\x7ba\x7d\x7d \x7bcontenido\x7d" "P" =
      some "\x7ba\x7d P" ∧
    (⟨pyReplaceL "\x7bcontenido\x7d".toList "P".toList
        "\x7b\x7ba\x7d\x7d \x7bcontenido\x7d".toList⟩ : String) =
      "\x7b\x7ba\x7d\x7d P" ∧
    ("\x7ba\x7d P" : String) ≠ "\x7b\x7ba\x7d\x7d P" ∧
    Parseo.buildPrompt "\x7bx\x7d" "P" = Option.none := by
  refine ⟨?_, ?_, by decide, ?_⟩
  · simp [Parseo.buildPrompt, pyFormatL, lbrace, rbrace, contenidoChars]
  · simp [pyReplaceL]
  · simp [Parseo.buildPrompt, pyFormatL, lbrace, rbrace, contenidoChars]

/-- C8 (amended): the analysis-stage Prompt Builder is pure verbatim
substitution — for every template containing exactly one occurrence of the
marker `[[JSON_DATA]]` and every payload it returns the template with the
marker replaced by the payload untransformed, and it cannot fail; the
extraction-stage builder follows `str.format` semantics instead: in a
brace-free context it substitutes the field `\x7bcontenido\x7d` with the
payload verbatim, but it unescapes doubled braces and fails on unknown
fields or stray braces. -/
theorem C8_prompt_builders (template payload : String) :
    (countOcc Analisis.jsonMarker.toList template.toList = 1 →
      ∃ pre suf, template.toList = pre ++ Analisis.jsonMarker.toList ++ suf ∧
        (Analisis.buildPrompt template payload).toList =
          pre ++ payload.toList ++ suf) ∧
    (∀ pre suf : List Char,
      template.toList = pre ++ lbrace :: (contenidoChars ++ rbrace :: suf) →
      (∀ c ∈ pre, c ≠ lbrace ∧ c ≠ rbrace) →
      (∀ c ∈ suf, c ≠ lbrace ∧ c ≠ rbrace) →
      Parseo.buildPrompt template payload =
        some (String.mk (pre ++ payload.toList ++ suf))) := by
  constructor
  · intro hone
    obtain ⟨pre, suf, hsplit, _, hrepl⟩ := countOcc_one_replace
      Analisis.jsonMarker.toList payload.toList (by decide)
      template.toList.length template.toList le_rfl hone
    exact ⟨pre, suf, hsplit, hrepl⟩
  · intro pre suf hsplit hpre hsuf
    unfold Parseo.buildPrompt
    rw [hsplit, pyFormatL_subst payload.toList pre suf hpre hsuf]
    rfl

/-- Witness for C8 (amended): both builders substitute a concrete payload
verbatim into concrete single-marker templates. -/
theorem C8_witness :
    (∃ pre suf,
      ("A [[JSON_DATA]] B").toList = pre ++ Analisis.jsonMarker.toList ++ suf ∧
      (Analisis.buildPrompt "A [[JSON_DATA]] B" "P").toList =
        pre ++ "P".toList ++ suf) ∧
    Parseo.buildPrompt "A \x7bcontenido\x7d B" "P" =
      some (String.mk ("A ".toList ++ "P".toList ++ " B".toList)) := by
  constructor
  · exact (C8_prompt_builders "A [[JSON_DATA]] B" "P").1
      (by simp [countOcc, Analisis.jsonMarker])
  · exact (C8_prompt_builders "A \x7bcontenido\x7d B" "P").2
      "A ".toList " B".toList rfl (by decide) (by decide)

theorem mem_insertSorted (x y : String) (l : List String) :
    y ∈ Parseo.insertSorted x l ↔ y = x ∨ y ∈ l := by
  induction l with
  | nil => simp [Parseo.insertSorted]
  | cons a as ih =>
    by_cases h : Parseo.strLe x a = true
    · simp [Parseo.insertSorted, h]
    · have h' : Parseo.strLe x a = false := by simpa using h
      simp [Parseo.insertSorted, h', ih]
      tauto

theorem mem_sortStrings (y : String) (l : List String) :
    y ∈ Parseo.sortStrings l ↔ y ∈ l := by
  induction l with
  | nil => simp [Parseo.sortStrings]
  | cons a as ih => simp [Parseo.sortStrings, mem_insertSorted, ih]

/-- C9 counterexample: a folder holding one PDF whose extracted text is
empty is, per the claim's definition, a folder with no eligible documents;
yet the run does not fail in the document-to-text step — the per-document
header makes the joined blob nonempty — and model calls (a probe and a
completion) are issued. -/
theorem C9_counterexample :
    Parseo.read_pdfs_from_folder (some ["a.pdf"]) (fun _ => "") =
      some "### DOCUMENTO: a.pdf" ∧
    Parseo.analizar_carpeta_obras (some ["a.pdf"]) (fun _ => "")
      "\x7bcontenido\x7d" (fun _ => true) (fun _ => false) ["m"]
      (fun _ => some "r") (fun _ => some (PyVal.dict [])) =
      ([ApiCall.probeMaxCompletion "m", ApiCall.completion "m"], some "r") := by
  constructor
  · rfl
  · simp [Parseo.analizar_carpeta_obras, Parseo.read_pdfs_from_folder,
      Parseo.sortStrings, Parseo.insertSorted, Parseo.lowerStr,
      Parseo.lowerChar, Parseo.pyStrip, Parseo.isSpaceChar,
      Parseo.buildPrompt, pyFormatL, lbrace, rbrace, contenidoChars,
      Parseo.first_available_model]

/-- C9 (amended): a run against an existing folder that contains no
`.pdf`-named files fails inside the document-to-text step
(`read_pdfs_from_folder` raises `RuntimeError` on the empty joined text),
and the extraction stage issues no model request at all — neither a probe
nor a completion; a folder whose PDFs merely extract to empty text does
not fail (see the counterexample). -/
theorem C9_no_pdfs_fails_before_model_calls
    (names : List String) (extractText : String → String) (template : String)
    (okMC okMT : String → Bool) (candidates : List String)
    (respond : String → Option String) (parse : String → Option PyVal)
    (hnone : ∀ n ∈ names,
      (".pdf".toList.isSuffixOf (Parseo.lowerStr n).toList) = false) :
    Parseo.read_pdfs_from_folder (some names) extractText = Option.none ∧
    Parseo.analizar_carpeta_obras (some names) extractText template okMC okMT
      candidates respond parse = ([], Option.none) := by
  have hfilter : (Parseo.sortStrings names).filter
      (fun n => ".pdf".toList.isSuffixOf (Parseo.lowerStr n).toList) = [] := by
    rw [List.filter_eq_nil_iff]
    intro a ha
    have ham : a ∈ names := (mem_sortStrings a names).mp ha
    show ¬ (".pdf".toList.isSuffixOf (Parseo.lowerStr a).toList) = true
    rw [hnone a ham]
    simp
  have hread : Parseo.read_pdfs_from_folder (some names) extractText =
      Option.none := by
    simp only [Parseo.read_pdfs_from_folder]
    rw [hfilter]
    rfl
  exact ⟨hread, by simp [Parseo.analizar_carpeta_obras, hread]⟩

/-- Witness for C9 (amended): an existing folder with only non-PDF files
fails in the document-to-text step with no model call issued. -/
theorem C9_witness :
    Parseo.read_pdfs_from_folder (some ["a.txt", "notes.md"])
      (fun _ => "text") = Option.none ∧
    Parseo.analizar_carpeta_obras (some ["a.txt", "notes.md"])
      (fun _ => "text") "\x7bcontenido\x7d" (fun _ => true) (fun _ => true)
      ["m1", "m2"] (fun _ => some "r") (fun _ => some (PyVal.dict [])) =
      ([], Option.none) :=
  C9_no_pdfs_fails_before_model_calls ["a.txt", "notes.md"] (fun _ => "text")
    "\x7bcontenido\x7d" (fun _ => true) (fun _ => true) ["m1", "m2"]
    (fun _ => some "r") (fun _ => some (PyVal.dict [])) (by decide)
